import Mathlib

/-!
The default processor of chatops (processor/default.go).

A shallow embedding of the command/template execution engine of
`processor/default.go`: the per-invocation executor (`DefaultExecutor`), its
function surface (`fAddAttachment`, `fPostFile`, `fSendMessageEx`, ...), the
render pipeline (`render`, `execute`, `After`) and the command
(`DefaultCommand.Params`, `DefaultCommand.Execute`).

Go strings are modelled by `String` (a sequence of characters), a `sync.Map`
keyed by goroutine id by a function `Nat → Option _`, and the collaborators
that the engine only consumes (the bot, the file system, the template engine)
by explicit data: a bot is a failure oracle over the history of `Post` calls,
a compiled template is the script of host-function calls that its evaluation
makes, followed by its output or its error.
-/

set_option autoImplicit false

/-! ## Go standard library -/

namespace unicode

/-- Go `unicode.IsSpace`: the Latin-1 spaces `\t \n \v \f \r`, space, U+0085,
U+00A0, and the other code points with the White_Space property. -/
def IsSpace (r : Char) : Bool :=
  let n := r.toNat
  (9 ≤ n && n ≤ 13) || n == 32 || n == 0x85 || n == 0xA0 || n == 0x1680 ||
  (0x2000 ≤ n && n ≤ 0x200A) || n == 0x2028 || n == 0x2029 || n == 0x202F ||
  n == 0x205F || n == 0x3000

end unicode

namespace strings

/-- Characters of a string with the leading run satisfying `f` removed. -/
def trimLeft (f : Char → Bool) (cs : List Char) : List Char :=
  cs.dropWhile f

/-- Characters of a string with the trailing run satisfying `f` removed. -/
def trimRight (f : Char → Bool) (cs : List Char) : List Char :=
  (cs.reverse.dropWhile f).reverse

/-- Go `strings.TrimSpace`: the string without its leading and trailing white
space, as defined by Unicode. -/
def TrimSpace (s : String) : String :=
  String.mk (trimRight unicode.IsSpace (trimLeft unicode.IsSpace s.data))

/-- Drops `suffix` from the end of `cs` when `cs` ends with it. -/
def trimSuffixChars (cs suffix : List Char) : List Char :=
  if suffix.isSuffixOf cs then cs.take (cs.length - suffix.length) else cs

/-- Go `strings.TrimSuffix`: `s` without the trailing `suffix`; `s` itself when
it does not end with `suffix`. -/
def TrimSuffix (s suffix : String) : String :=
  String.mk (trimSuffixChars s.data suffix.data)

/-- Splitting a character sequence at every occurrence of `sep`: `n`
occurrences give `n + 1` pieces. -/
def splitChars (sep : Char) : List Char → List (List Char)
  | [] => [[]]
  | c :: cs =>
    if c = sep then [] :: splitChars sep cs
    else
      match splitChars sep cs with
      | [] => [[c]]
      | piece :: rest => (c :: piece) :: rest

/-- Go `strings.Split(s, sep)` for a one-character separator (the engine only
splits on `","`): all substrings of `s` between occurrences of `sep`. -/
def Split (s : String) (sep : Char) : List String :=
  (splitChars sep s.data).map String.mk

end strings

namespace os

/-- Go `os.PathSeparator` on the platforms the engine is deployed on. -/
def PathSeparator : Char := '/'

/-- Go `os.IsPathSeparator`. -/
def IsPathSeparator (c : Char) : Bool := c == PathSeparator

end os

namespace filepath

/-- Scan of `filepath.Ext` from the end of the path: `rev` is the not yet
visited part of the path reversed, `acc` the visited tail. -/
def extScan : List Char → List Char → List Char
  | [], _ => []
  | c :: rev, acc =>
    if os.IsPathSeparator c then []
    else if c = '.' then c :: acc
    else extScan rev (c :: acc)

/-- Go `filepath.Ext`: the suffix beginning at the final dot in the final
element of the path; empty if there is no dot. -/
def Ext (path : String) : String :=
  String.mk (extScan path.data.reverse [])

/-- The characters of `filepath.Base`: trailing separators are stripped, then
the last element is taken. -/
def baseChars (cs : List Char) : List Char :=
  if cs = [] then ['.']
  else
    let stripped := strings.trimRight os.IsPathSeparator cs
    let last := (stripped.reverse.takeWhile (fun c => !os.IsPathSeparator c)).reverse
    if last = [] then [os.PathSeparator] else last

/-- Go `filepath.Base` (no volume names): the last element of the path, after
trailing separators are stripped; `.` for the empty path and the separator
for a path of separators only. -/
def Base (path : String) : String :=
  String.mk (baseChars path.data)

end filepath

/-! ## Collaborators that are not part of the engine -/

namespace utils

/-- Modelled from the spec: `utils.IsEmpty` belongs to the external library
`github.com/devopsext/utils`, which is not among the sources. The spec
describes its use on strings as "empty after trimming" and treats
"empty/whitespace-only text" alike: a string is empty when nothing is left
of it once surrounding white space is removed. -/
def IsEmpty (s : String) : Bool :=
  (strings.TrimSpace s).data.isEmpty

/-- Modelled from the spec: `utils.IsEmpty` applied to a list of strings, as
`Params` does. The spec gives the default scheme to "a Command with no
configured Params": a list is empty when it has no entry (a nil and an empty
Go slice are both the empty list here). -/
def IsEmptySlice (xs : List String) : Bool :=
  xs.isEmpty

end utils

namespace common

/-- Modelled from the spec: `common.RemoveEmptyStrings` is a function of this
repository (package `common`) that is not among the sources. The spec says
that the channel list is taken "after removing blank entries" ("empty entries
removed"), the remaining entries keeping their order. -/
def RemoveEmptyStrings (items : List String) : List String :=
  items.filter (fun v => !utils.IsEmpty v)

/-- A `common.Attachment`; the attachment type is kept as its string. -/
structure Attachment where
  Title : String
  Text : String
  Data : String
  Typ : String
  deriving DecidableEq, Repr

/-- The type `common.ExecuteParams`: parameter name to value. -/
abbrev ExecuteParams := List (String × String)

/-- A `common.User`, known to the engine by its `ID()`. -/
structure User where
  ID : String
  deriving DecidableEq, Repr

/-- A `common.Message`: an opaque handle passed through to `Bot.Post`. -/
structure Message where
  ID : String
  deriving DecidableEq, Repr

/-- A `common.Channel`, known to the engine by its `ID()`. -/
structure Channel where
  ID : String
  deriving DecidableEq, Repr

/-- One call `Bot.Post(channel, text, attachments, message)`; `message` is
`none` for Go's nil. -/
structure PostCall where
  channel : String
  text : String
  attachments : List Attachment
  message : Option Message
  deriving DecidableEq, Repr

/-- A `common.Bot`: its `Name()` and the outcome of `Post`, which may depend on
every `Post` call made before (`none` is Go's nil error). -/
structure Bot where
  Name : String
  Post : List PostCall → PostCall → Option String

end common

open common

/-- A Go `interface{}` value handed to a template or to a host function. -/
inductive Value where
  | null
  | str (s : String)
  | bytes (b : String)
  | invocation (params : ExecuteParams) (bot user name : String)
  deriving DecidableEq, Repr

/-- A value of the `params` map of `sendMessageEx`. -/
inductive ParamValue where
  | attachment (a : Attachment)
  | items (xs : List (Option Attachment))
  | other (v : Value)
  deriving DecidableEq, Repr

/-- The `map[string]interface{}` argument of `sendMessageEx`; nil is `[]`. In
`ParamValue.items`, an element that is not an attachment is `none`. -/
abbrev SendParams := List (String × ParamValue)

/-- One call of a state-changing host function of the function table, as made
by the template engine while it evaluates a template. The pure functions
(`createAttachment`, `getBot`, ...) change nothing; the nested renders
(`runFile`, `runCommand`, `runTemplate`) are carried out by the engine on the
same goroutine, so their host-function calls are part of the same script. -/
inductive Call where
  | addAttachment (title text : String) (data : Value) (typ : String)
  | postFile (path : String) (obj : Value)
  | postCommand (fileName : String) (obj : Value)
  | postTemplate (fileName : String) (obj : Value)
  | sendMessage (message channels : String)
  | sendMessageEx (message channels : String) (params : SendParams)
  | setInvisible
  | setError
  deriving DecidableEq, Repr

/-- What evaluating a template on one data object does: the host functions it
calls, in evaluation order, then its output bytes or its evaluation error. A
host function that returns an error ends the evaluation at that call. -/
structure Script where
  calls : List Call
  result : Except String String

/-- A compiled `toolsRender.TextTemplate`: its behaviour on each data object,
and the text under which it reports the error of a host function. -/
structure TextTemplate where
  RenderObject : Value → Script
  callError : String → String

/-- The environment of the engine: `utils.Content` (reading a file),
`toolsRender.NewTextTemplate` (compiling a named template from its content) and
`fmt.Sprintf("%v", _)`. -/
structure Env where
  Content : String → Except String String
  NewTextTemplate : String → String → Except String TextTemplate
  Sprint : Value → String

/-- An operation on a counter of the meter, with the labels of the counter. -/
inductive MetricEvent where
  | inc (name : String) (labels : List (String × String))
  | add (name : String) (labels : List (String × String)) (n : Nat)
  deriving DecidableEq, Repr

/-- What the engine does to the outside: the `Bot.Post` calls, the errors
given to `logger.Error`, and the counter operations, each in order. -/
structure World where
  posted : List PostCall
  logged : List String
  metrics : List MetricEvent
  deriving DecidableEq, Repr

namespace sync

/-- A `sync.Map` keyed by goroutine id. -/
abbrev Map (α : Type) := Nat → Option α

/-- The empty map `&sync.Map{}`. -/
def Map.empty {α : Type} : Map α := fun _ => none

/-- Method `Load`. -/
def Map.Load {α : Type} (m : Map α) (key : Nat) : Option α := m key

/-- Method `Store`. -/
def Map.Store {α : Type} (m : Map α) (key : Nat) (v : α) : Map α :=
  fun k => if k = key then some v else m k

/-- Method `Delete`. -/
def Map.Delete {α : Type} (m : Map α) (key : Nat) : Map α :=
  fun k => if k = key then none else m k

/-- Method `LoadAndDelete`. -/
def Map.LoadAndDelete {α : Type} (m : Map α) (key : Nat) : Map α × Option α :=
  (m.Delete key, m key)

end sync

/-! ## The types of `processor/default.go` -/

structure DefaultOptions where
  CommandsDir : String
  TemplatesDir : String
  CommandExt : String
  ConfigExt : String
  Description : String
  Error : String
  deriving DecidableEq, Repr

structure DefaultReposne where
  Visible : Bool
  Original : Bool
  Duration : Bool
  deriving DecidableEq, Repr

structure DefaultConfig where
  Description : String
  Params : List String
  Aliases : List String
  Response : DefaultReposne
  deriving DecidableEq, Repr

/-- The fields of `Default` that a command reads through its `processor`
pointer. -/
structure DefaultRef where
  name : String
  options : DefaultOptions
  deriving DecidableEq, Repr

structure DefaultCommand where
  name : String
  path : String
  config : Option DefaultConfig
  processor : DefaultRef
  deriving DecidableEq, Repr

structure DefaultPost where
  Name : String
  Path : String
  Obj : Value
  deriving DecidableEq, Repr

structure DefaultExecutor where
  command : DefaultCommand
  visible : Option Bool
  error : Option Bool
  attachments : sync.Map (List Attachment)
  posts : sync.Map (List DefaultPost)
  bot : Bot
  user : User
  params : ExecuteParams
  message : Option Message
  channel : Option Channel
  template : TextTemplate

/-! ## Default executor -/

namespace DefaultExecutor

/-- Method `Error`. -/
def Error (de : DefaultExecutor) : Bool :=
  match de.error with
  | some e => e
  | none => false

/-- Method `Visible`. -/
def Visible (de : DefaultExecutor) : Bool :=
  match de.visible with
  | some v => v
  | none =>
    match de.command.config with
    | some config => config.Response.Visible
    | none => false

/-- Method `filePath`: `fmt.Sprintf("%s%s%s", dir, string(os.PathSeparator), fileName)`. -/
def filePath (_de : DefaultExecutor) (dir fileName : String) : String :=
  dir ++ String.mk [os.PathSeparator] ++ fileName

/-- Method `fPostFile`, run on goroutine `gid`: the new executor state and the
string returned to the template. -/
def fPostFile (gid : Nat) (de : DefaultExecutor) (path : String) (obj : Value) :
    DefaultExecutor × String :=
  let posts : List DefaultPost :=
    match de.posts.Load gid with
    | some r => r
    | none => []
  let ext := filepath.Ext path
  let name := strings.TrimSuffix path ext
  let posts := posts ++ [{ Name := filepath.Base name, Path := path, Obj := obj }]
  ({ de with posts := de.posts.Store gid posts }, "")

/-- Method `fPostCommand`. -/
def fPostCommand (gid : Nat) (de : DefaultExecutor) (fileName : String) (obj : Value) :
    DefaultExecutor × String :=
  let s := de.filePath de.command.processor.options.CommandsDir fileName
  de.fPostFile gid s obj

/-- Method `fPostTemplate`. -/
def fPostTemplate (gid : Nat) (de : DefaultExecutor) (fileName : String) (obj : Value) :
    DefaultExecutor × String :=
  let s := de.filePath de.command.processor.options.TemplatesDir fileName
  de.fPostFile gid s obj

/-- The bytes of an attachment: the value itself when it is a `[]byte`,
otherwise its `%v` rendering. -/
def dataBytes (env : Env) (data : Value) : String :=
  match data with
  | Value.bytes b => b
  | v => env.Sprint v

/-- Method `fCreateAttachment`. -/
def fCreateAttachment (env : Env) (_de : DefaultExecutor) (title text : String) (data : Value)
    (typ : String) : Attachment :=
  { Title := title, Text := text, Data := dataBytes env data, Typ := typ }

/-- Method `fAddAttachment`, run on goroutine `gid`. -/
def fAddAttachment (env : Env) (gid : Nat) (de : DefaultExecutor) (title text : String)
    (data : Value) (typ : String) : DefaultExecutor × String :=
  let atts : List Attachment :=
    match de.attachments.Load gid with
    | some r => r
    | none => []
  let att : Attachment := { Title := title, Text := text, Data := dataBytes env data, Typ := typ }
  let atts := atts ++ [att]
  ({ de with attachments := de.attachments.Store gid atts }, "")

/-- The attachments that `fSendMessageEx` takes from its `params`. -/
def sendAttachments (params : SendParams) : List Attachment :=
  if params.length > 0 then
    let atts : List Attachment :=
      match params.lookup "attachment" with
      | some (ParamValue.attachment a) => [a]
      | _ => []
    match params.lookup "attachments" with
    | some (ParamValue.items xs) => atts ++ xs.filterMap id
    | _ => atts
  else []

/-- The delivery loop of `fSendMessageEx`: one `Post` per channel, the error
variable `err` being overwritten by every failing `Post`. -/
def sendLoop (bot : Bot) (message : String) (atts : List Attachment) :
    List String → World → Option String → World × Option String
  | [], w, err => (w, err)
  | ch :: rest, w, err =>
    let call : PostCall := { channel := ch, text := message, attachments := atts, message := none }
    match bot.Post w.posted call with
    | some e =>
      sendLoop bot message atts rest
        { w with posted := w.posted ++ [call], logged := w.logged ++ [e] } (some e)
    | none =>
      sendLoop bot message atts rest { w with posted := w.posted ++ [call] } err

/-- Method `fSendMessageEx`: the world afterwards, the returned string and the
returned error. -/
def fSendMessageEx (de : DefaultExecutor) (w : World) (message channels : String)
    (params : SendParams) : World × String × Option String :=
  if utils.IsEmpty message then
    (w, "", some "SendMessageEx err => empty message")
  else if utils.IsEmpty channels then
    (w, "", some "SendMessageEx err => no channels")
  else
    let chnls := strings.Split channels ','
    let chnls := RemoveEmptyStrings chnls
    if chnls.length = 0 then
      (w, "", some "SendMessageEx err => no channels")
    else
      let atts := sendAttachments params
      let r := sendLoop de.bot message atts chnls w none
      (r.1, "", r.2)

/-- Method `fSendMessage`. -/
def fSendMessage (de : DefaultExecutor) (w : World) (message channels : String) :
    World × String × Option String :=
  de.fSendMessageEx w message channels []

/-- Method `fSetInvisible`. -/
def fSetInvisible (de : DefaultExecutor) : DefaultExecutor × String :=
  ({ de with visible := some false }, "")

/-- Method `fSetError`. -/
def fSetError (de : DefaultExecutor) : DefaultExecutor × String :=
  ({ de with error := some true }, "")

/-- One host-function call made by the template engine on goroutine `gid`,
dispatched through the function table of `NewExecutorTemplate`: the new
executor state, the new world, and the string or error given back to the
engine. -/
def call (env : Env) (gid : Nat) (de : DefaultExecutor) (w : World) :
    Call → DefaultExecutor × World × Except String String
  | Call.addAttachment title text data typ =>
    let r := de.fAddAttachment env gid title text data typ
    (r.1, w, Except.ok r.2)
  | Call.postFile path obj =>
    let r := de.fPostFile gid path obj
    (r.1, w, Except.ok r.2)
  | Call.postCommand fileName obj =>
    let r := de.fPostCommand gid fileName obj
    (r.1, w, Except.ok r.2)
  | Call.postTemplate fileName obj =>
    let r := de.fPostTemplate gid fileName obj
    (r.1, w, Except.ok r.2)
  | Call.sendMessage message channels =>
    match de.fSendMessage w message channels with
    | (w1, _, some e) => (de, w1, Except.error e)
    | (w1, s, none) => (de, w1, Except.ok s)
  | Call.sendMessageEx message channels params =>
    match de.fSendMessageEx w message channels params with
    | (w1, _, some e) => (de, w1, Except.error e)
    | (w1, s, none) => (de, w1, Except.ok s)
  | Call.setInvisible =>
    let r := de.fSetInvisible
    (r.1, w, Except.ok r.2)
  | Call.setError =>
    let r := de.fSetError
    (r.1, w, Except.ok r.2)

/-- The host-function calls of one evaluation, in order, up to the first one
that returns an error. -/
def calls (env : Env) (gid : Nat) :
    List Call → DefaultExecutor → World → DefaultExecutor × World × Option String
  | [], de, w => (de, w, none)
  | c :: cs, de, w =>
    match de.call env gid w c with
    | (de1, w1, Except.error e) => (de1, w1, some e)
    | (de1, w1, Except.ok _) => calls env gid cs de1 w1

/-- Evaluation `de.template.RenderObject(obj)` on goroutine `gid`: the output
bytes or the error of the engine. -/
def RenderObject (env : Env) (gid : Nat) (de : DefaultExecutor) (w : World) (obj : Value) :
    DefaultExecutor × World × Except String String :=
  let script := de.template.RenderObject obj
  match calls env gid script.calls de w with
  | (de1, w1, some e) => (de1, w1, Except.error (de.template.callError e))
  | (de1, w1, none) => (de1, w1, script.result)

/-- Method `render`, run on goroutine `gid`: the executor and the world
afterwards, and the returned text, attachments and error. -/
def render (env : Env) (gid : Nat) (de : DefaultExecutor) (w : World) (obj : Value) :
    DefaultExecutor × World × String × List Attachment × Option String :=
  match de.RenderObject env gid w obj with
  | (de1, w1, Except.error err) =>
    ({ de1 with attachments := de1.attachments.Delete gid, posts := de1.posts.Delete gid },
      w1, "", [], some err)
  | (de1, w1, Except.ok b) =>
    let r := de1.attachments.LoadAndDelete gid
    let atts : List Attachment :=
      match r.2 with
      | some a => a
      | none => []
    ({ de1 with attachments := r.1 }, w1, strings.TrimSpace b, atts, none)

end DefaultExecutor

/-- Method `DefaultCommand.getNameWithGroup`. -/
def DefaultCommand.getNameWithGroup (dc : DefaultCommand) (delim : String) : String :=
  if !utils.IsEmpty dc.processor.name then dc.processor.name ++ delim ++ dc.name
  else dc.name

namespace DefaultExecutor

/-- The labels of the counters of `execute`. -/
def labels (de : DefaultExecutor) : List (String × String) :=
  (if !utils.IsEmpty de.command.processor.name then [("group", de.command.processor.name)]
    else []) ++
  [("command", de.command.name), ("bot", de.bot.Name), ("user_id", de.user.ID)]

/-- Method `execute`, run on goroutine `gid`; `elapsed` is the value of
`time.Since(t1).Milliseconds()` read after the render. -/
def execute (env : Env) (gid : Nat) (elapsed : Nat) (de : DefaultExecutor) (w : World)
    (obj : Value) : DefaultExecutor × World × String × List Attachment × Option String :=
  let labels := de.labels
  let w := { w with metrics := w.metrics ++ [MetricEvent.inc "requests" labels] }
  match de.render env gid w obj with
  | (de1, w1, _, _, some err) =>
    (de1, { w1 with metrics := w1.metrics ++ [MetricEvent.inc "errors" labels] }, "", [], some err)
  | (de1, w1, text, atts, none) =>
    (de1, { w1 with metrics := w1.metrics ++ [MetricEvent.add "time" labels elapsed] },
      text, atts, none)

end DefaultExecutor

/-- Function `NewExecutorTemplate`: the file is read, then compiled under the
name `default-internal-<name>` with the function table of the executor. -/
def NewExecutorTemplate (env : Env) (name path : String) : Except String TextTemplate :=
  match env.Content path with
  | Except.error err =>
    Except.error ("Default couldn't read template " ++ path ++ ", error " ++ err)
  | Except.ok content =>
    match env.NewTextTemplate ("default-internal-" ++ name) content with
    | Except.error err => Except.error err
    | Except.ok template => Except.ok template

/-- Function `NewExecutor`. -/
def NewExecutor (env : Env) (name path : String) (command : DefaultCommand) (bot : Bot)
    (user : User) (params : ExecuteParams) : Except String DefaultExecutor :=
  match NewExecutorTemplate env name path with
  | Except.error err => Except.error err
  | Except.ok template =>
    Except.ok
      { command := command
        visible := none
        error := none
        attachments := sync.Map.empty
        posts := sync.Map.empty
        bot := bot
        user := user
        params := params
        message := none
        channel := none
        template := template }

/-- A goroutine started by `After`: the closure over the executor, the
delivered message and channel, and the deferred post it is given. -/
structure PostTask where
  de : DefaultExecutor
  message : Message
  channel : Channel
  post : DefaultPost

namespace DefaultExecutor

/-- Method `After`, run on goroutine `gid`: the executor afterwards, the
goroutines started (one per loaded post, in order) and the returned error. -/
def After (gid : Nat) (de : DefaultExecutor) (message : Message) (channel : Channel) :
    DefaultExecutor × List PostTask × Option String :=
  let r := de.posts.LoadAndDelete gid
  let posts : List DefaultPost :=
    match r.2 with
    | some p => p
    | none => []
  let de1 := { de with posts := r.1 }
  (de1, posts.map (fun p => { de := de1, message := message, channel := channel, post := p }),
    none)

end DefaultExecutor

namespace PostTask

/-- The executor that the goroutine builds: `NewExecutor` on the post, then
`message` and `channel` set. -/
def executor (env : Env) (t : PostTask) : Except String DefaultExecutor :=
  match NewExecutor env t.post.Name t.post.Path t.de.command t.de.bot t.de.user t.de.params with
  | Except.error err => Except.error err
  | Except.ok executor =>
    Except.ok { executor with message := some t.message, channel := some t.channel }

/-- The body of the goroutine started by `After`, run on its own goroutine
`gid`. -/
def run (env : Env) (gid : Nat) (elapsed : Nat) (t : PostTask) (w : World) : World :=
  match t.executor env with
  | Except.error err => { w with logged := w.logged ++ [err] }
  | Except.ok executor =>
    match executor.execute env gid elapsed w t.post.Obj with
    | (_, w1, _, _, some err) => { w1 with logged := w1.logged ++ [err] }
    | (_, w1, text, atts, none) =>
      if utils.IsEmpty text then w1
      else
        let call : PostCall :=
          { channel := t.channel.ID, text := text, attachments := atts, message := some t.message }
        match t.de.bot.Post w1.posted call with
        | some err => { w1 with posted := w1.posted ++ [call], logged := w1.logged ++ [err] }
        | none => { w1 with posted := w1.posted ++ [call] }

end PostTask

/-! ## Default command -/

namespace DefaultCommand

/-- Method `Name`. -/
def Name (dc : DefaultCommand) : String := dc.name

/-- One iteration of the loop of `Params`: `s` is the pattern so far, `r`
the patterns collected. -/
def paramsStep (sr : String × List String) (i : Nat) : String × List String :=
  let n := "p" ++ toString i
  let s :=
    if sr.1 = "" then "(?P<" ++ n ++ ">\\S+)"
    else sr.1 ++ "\\s+(?P<" ++ n ++ ">\\S+)"
  (s, sr.2 ++ [s])

/-- Method `Params`. -/
def Params (dc : DefaultCommand) : List String :=
  let params : List String :=
    match dc.config with
    | some config => config.Params
    | none => []
  if utils.IsEmptySlice params then
    ((List.range 10).foldl paramsStep ("", [])).2
  else params

/-- The result of `Execute`: executor, message, attachments and error. -/
structure Executed where
  executor : Option DefaultExecutor
  message : String
  attachments : List Attachment
  err : Option String

/-- Method `Execute`, run on goroutine `gid`. -/
def Execute (env : Env) (gid : Nat) (elapsed : Nat) (dc : DefaultCommand) (w : World) (bot : Bot)
    (user : User) (params : ExecuteParams) : World × Executed :=
  let name := dc.getNameWithGroup "_"
  match NewExecutor env name dc.path dc bot user params with
  | Except.error err => (w, { executor := none, message := "", attachments := [], err := some err })
  | Except.ok executor =>
    let m := Value.invocation params bot.Name user.ID (dc.getNameWithGroup "/")
    match executor.execute env gid elapsed w m with
    | (_, w1, _, _, some err) =>
      ({ w1 with logged := w1.logged ++ [err] },
        { executor := none, message := "", attachments := []
          err := some dc.processor.options.Error })
    | (executor1, w1, message, atts, none) =>
      (w1, { executor := some executor1, message := message, attachments := atts, err := none })

end DefaultCommand

/-! ## Default: the registry of commands -/

namespace filepath

/-- One element of a path met by `filepath.Clean`: empty elements and `.` are
dropped, `..` removes the element before it, is dropped at the root and is
kept otherwise. The elements kept so far are in `stack`, the last one first. -/
def cleanStep (rooted : Bool) (stack : List (List Char)) (e : List Char) : List (List Char) :=
  if e = [] ∨ e = ['.'] then stack
  else if e = ['.', '.'] then
    match stack with
    | top :: rest => if top = ['.', '.'] then e :: stack else rest
    | [] => if rooted then [] else [e]
  else e :: stack

/-- Go `filepath.Clean` (no volume names): the shortest path equivalent to
`path` by purely lexical processing; `.` when nothing is left. -/
def Clean (path : String) : String :=
  let rooted := path.data.head? = some os.PathSeparator
  let kept := ((strings.splitChars os.PathSeparator path.data).foldl (cleanStep rooted) []).reverse
  let out := (if rooted then [os.PathSeparator] else []) ++ [os.PathSeparator].intercalate kept
  if out = [] then "." else String.mk out

/-- Go `filepath.Dir`: all but the last element of the path, cleaned. -/
def Dir (path : String) : String :=
  Clean (String.mk (path.data.reverse.dropWhile (fun c => !os.IsPathSeparator c)).reverse)

/-- Go `filepath.Join`: the elements from the first non-empty one on, joined by
the separator and cleaned; the empty string when all are empty. -/
def Join (elem : List String) : String :=
  match elem.dropWhile (fun e => e = "") with
  | [] => ""
  | rest => Clean (String.intercalate (String.mk [os.PathSeparator]) rest)

end filepath

/-- The files that `loadConfig` consults besides `utils.Content`:
`utils.FileExists` and `yaml.Unmarshal` into a `DefaultConfig`. -/
structure ConfigFiles where
  FileExists : String → Bool
  Unmarshal : String → Except String DefaultConfig

/-- The processor `Default`; its commands are `DefaultCommand`s. -/
structure Default where
  name : String
  options : DefaultOptions
  commands : List DefaultCommand
  deriving DecidableEq, Repr

namespace Default

/-- Method `Name`. -/
def Name (d : Default) : String := d.name

/-- Method `Commands`. -/
def Commands (d : Default) : List DefaultCommand := d.commands

/-- What a command keeps of the processor that created it. -/
def ref (d : Default) : DefaultRef := { name := d.name, options := d.options }

/-- Method `loadConfig`: no config and no error when the file does not exist. -/
def loadConfig (env : Env) (cfg : ConfigFiles) (_d : Default) (path : String) :
    Except String (Option DefaultConfig) :=
  if !cfg.FileExists path then Except.ok none
  else
    match env.Content path with
    | Except.error err => Except.error err
    | Except.ok bytes =>
      match cfg.Unmarshal bytes with
      | Except.error err => Except.error err
      | Except.ok v => Except.ok (some v)

/-- The config that `createCommand` ends up with, and the world after the error
of `loadConfig`, if any, is logged. -/
def commandConfig (env : Env) (cfg : ConfigFiles) (d : Default) (w : World) (name path : String) :
    World × Option DefaultConfig :=
  if !utils.IsEmpty d.options.ConfigExt then
    let dFile := filepath.Dir path
    let pConfig := filepath.Join [dFile, name ++ d.options.ConfigExt]
    match d.loadConfig env cfg pConfig with
    | Except.error err =>
      ({ w with logged := w.logged ++
          ["Default couldn't read config " ++ path ++ ", error " ++ err] }, none)
    | Except.ok config => (w, config)
  else (w, none)

/-- Method `createCommand`. -/
def createCommand (env : Env) (cfg : ConfigFiles) (d : Default) (w : World) (name path : String) :
    World × Except String DefaultCommand :=
  let r := d.commandConfig env cfg w name path
  let dc : DefaultCommand := { name := name, path := path, config := r.2, processor := d.ref }
  match NewExecutorTemplate env name path with
  | Except.error err => (r.1, Except.error ("Default file " ++ path ++ " " ++ err))
  | Except.ok _ => (r.1, Except.ok dc)

/-- Method `AddCommand`: the registry and the world afterwards, and the
returned error. -/
def AddCommand (env : Env) (cfg : ConfigFiles) (d : Default) (w : World) (name path : String) :
    Default × World × Option String :=
  match d.createCommand env cfg w name path with
  | (w1, Except.error err) => (d, { w1 with logged := w1.logged ++ [err] }, some err)
  | (w1, Except.ok dc) => ({ d with commands := d.commands ++ [dc] }, w1, none)

end Default

/-! ## The positional scheme, in the words of the specification -/

/-- The capture group named `p<k>`, matching one token. -/
def positionalGroup (k : Nat) : String :=
  "(?P<p" ++ toString k ++ ">\\S+)"

/-- The pattern made of the groups `p0`, ..., `p<i>` in that order, consecutive
groups separated by the white-space-run pattern. -/
def positional (i : Nat) : String :=
  String.intercalate "\\s+" ((List.range (i + 1)).map positionalGroup)

/-- Number of capture groups of a pattern: its opening parentheses. -/
def groupCount (s : String) : Nat :=
  s.data.count '('

/-- Host-function calls made by several goroutines on one executor, interleaved
in some order: each entry is the calling goroutine and its call. -/
def DefaultExecutor.interleaved (env : Env) :
    List (Nat × Call) → DefaultExecutor → World → DefaultExecutor × World
  | [], de, w => (de, w)
  | gc :: rest, de, w =>
    let r := de.call env gc.1 w gc.2
    DefaultExecutor.interleaved env rest r.1 r.2.1

/-! ## What the calls of a script leave behind -/

/-- The sequence stored for one goroutine; no entry is the empty sequence. -/
def stored {α : Type} (m : sync.Map (List α)) (gid : Nat) : List α :=
  match m.Load gid with
  | some r => r
  | none => []

/-- The attachment that a call adds, if it is a call of `addAttachment`. -/
def Call.added (env : Env) : Call → List Attachment
  | Call.addAttachment title text data typ =>
    [{ Title := title, Text := text, Data := DefaultExecutor.dataBytes env data, Typ := typ }]
  | _ => []

/-- The file that a call of `postFile`, `postCommand` or `postTemplate` names,
for a command `dc`, and the payload of the call. -/
def Call.target (dc : DefaultCommand) : Call → Option (String × Value)
  | Call.postFile path obj => some (path, obj)
  | Call.postCommand fileName obj =>
    some (dc.processor.options.CommandsDir ++ String.mk [os.PathSeparator] ++ fileName, obj)
  | Call.postTemplate fileName obj =>
    some (dc.processor.options.TemplatesDir ++ String.mk [os.PathSeparator] ++ fileName, obj)
  | _ => none

/-- The deferred post that a call records, if it is a call of `postFile`,
`postCommand` or `postTemplate`. -/
def Call.recorded (dc : DefaultCommand) (c : Call) : List DefaultPost :=
  match c.target dc with
  | some (path, obj) =>
    [{ Name := filepath.Base (strings.TrimSuffix path (filepath.Ext path)), Path := path,
       Obj := obj }]
  | none => []

/-- The base file name of a path without the extension of the path, in the
words of the specification: the last element of the path, from which the
extension is removed. -/
def baseNameWithoutExt (path : String) : String :=
  strings.TrimSuffix (filepath.Base path) (filepath.Ext path)

/-- The `Post` calls that a fan-out send makes: one per entry of the channel
list that is left after the blank entries are removed, in the order of the
list, with the message, the attachments taken from `params`, and no message
to reply to. -/
def sendCalls (message channels : String) (params : SendParams) : List PostCall :=
  (RemoveEmptyStrings (strings.Split channels ',')).map
    (fun ch => { channel := ch, text := message,
                 attachments := DefaultExecutor.sendAttachments params, message := none })

/-- The outcome of each of a sequence of `Post` calls made one after the other
on a bot that has seen the calls `hist` before. -/
def postOutcomes (bot : Bot) : List PostCall → List PostCall → List (Option String)
  | _, [] => []
  | hist, c :: cs => bot.Post hist c :: postOutcomes bot (hist ++ [c]) cs

/-- The errors of the failing calls among a sequence of `Post` calls, in the
order of the calls. -/
def postErrors (bot : Bot) (hist calls : List PostCall) : List String :=
  (postOutcomes bot hist calls).filterMap id

/-! ## Worlds and bots, to compare what goroutines do -/

/-- The world before anything was done. -/
def World.empty : World := { posted := [], logged := [], metrics := [] }

/-- What was done in `v`, followed by what was done in `w`. -/
def World.append (v w : World) : World :=
  { posted := v.posted ++ w.posted, logged := v.logged ++ w.logged,
    metrics := v.metrics ++ w.metrics }

/-- The `Post` calls of `w1` are those of `w` followed by calls without a
message to reply to, as the fan-out sends make them. -/
def World.FanOut (w w1 : World) : Prop :=
  ∃ extra : List PostCall, w1.posted = w.posted ++ extra ∧ ∀ c ∈ extra, c.message = none

/-- A bot that answers each `Post` independently of the `Post` calls made
before. -/
def common.Bot.Memoryless (bot : Bot) : Prop :=
  ∀ (hist : List PostCall) (c : PostCall), bot.Post hist c = bot.Post [] c

/-! ## Concrete data used to evaluate the definitions -/

namespace Sample

def options : DefaultOptions :=
  { CommandsDir := "commands", TemplatesDir := "templates", CommandExt := ".tmpl",
    ConfigExt := ".yaml", Description := "", Error := "Couldn't execute command" }

def processor : DefaultRef := { name := "ops", options := options }

def command : DefaultCommand :=
  { name := "hello", path := "commands/hello.tmpl", config := none, processor := processor }

def configured : DefaultCommand :=
  { command with
    config := some { Description := "", Params := ["host", "port"], Aliases := [],
                     Response := { Visible := true, Original := false, Duration := false } } }

def user : User := { ID := "U1" }

def message : Message := { ID := "M1" }

def channel : Channel := { ID := "C1" }

def world : World := { posted := [], logged := [], metrics := [] }

/-- A bot whose `Post` always succeeds. -/
def bot : Bot := { Name := "slack", Post := fun _ _ => none }

/-- A bot whose `Post` fails on every channel, with the channel in the error. -/
def failingBot : Bot := { Name := "slack", Post := fun _ c => some ("post failed: " ++ c.channel) }

/-- A file system without any file. -/
def noFiles : Env :=
  { Content := fun path => Except.error ("open " ++ path ++ ": no such file or directory")
    NewTextTemplate := fun _ _ => Except.error "template: parse error"
    Sprint := fun _ => "" }

/-- The host-function calls of the sample templates: two attachments and a
deferred post between them. -/
def calls : List Call :=
  [Call.addAttachment "report" "first" (Value.str "a,b") "file",
   Call.postCommand "followup.tmpl" (Value.str "payload"),
   Call.addAttachment "chart" "second" (Value.bytes "png") "image"]

/-- A template that makes the sample calls and prints a greeting. -/
def template : TextTemplate :=
  { RenderObject := fun _ => { calls := calls, result := Except.ok "  hello world \n" }
    callError := fun e => "template: error calling: " ++ e }

/-- A template that makes the sample calls and then fails. -/
def failingTemplate : TextTemplate :=
  { RenderObject := fun _ =>
      { calls := calls, result := Except.error "template: map has no entry for key" }
    callError := fun e => "template: error calling: " ++ e }

/-- A template without host-function calls that prints its payload. -/
def followup : TextTemplate :=
  { RenderObject := fun obj =>
      { calls := []
        result := Except.ok (match obj with
          | Value.str s => " " ++ s ++ " "
          | _ => "") }
    callError := fun e => e }

/-- A file system with the command `hello.tmpl` and its follow-up. -/
def files : Env :=
  { Content := fun path =>
      if path = "commands/hello.tmpl" then Except.ok "hello"
      else if path = "commands/followup.tmpl" then Except.ok "followup"
      else Except.error ("open " ++ path ++ ": no such file or directory")
    NewTextTemplate := fun _ content =>
      if content = "hello" then Except.ok template
      else if content = "followup" then Except.ok followup
      else Except.error "template: parse error"
    Sprint := fun v =>
      match v with
      | Value.str s => s
      | Value.null => "<nil>"
      | _ => "" }

/-- The executor of an invocation of the sample command, as `NewExecutor`
builds it. -/
def executor : DefaultExecutor :=
  { command := command, visible := none, error := none, attachments := sync.Map.empty,
    posts := sync.Map.empty, bot := bot, user := user, params := [("p0", "x")],
    message := none, channel := none, template := template }

/-- The same executor with the failing template. -/
def failingExecutor : DefaultExecutor := { executor with template := failingTemplate }

/-- A goroutine of `After` for a post whose file does not exist. -/
def missingTask : PostTask :=
  { de := executor, message := message, channel := channel
    post := { Name := "missing", Path := "commands/missing.tmpl", Obj := Value.null } }

/-- A goroutine of `After` for the follow-up of the sample command. -/
def followupTask : PostTask :=
  { de := executor, message := message, channel := channel
    post := { Name := "followup", Path := "commands/followup.tmpl", Obj := Value.str "payload" } }

/-- A registry with one command. -/
def registry : Default := { name := "ops", options := options, commands := [configured] }

/-- Config files: `commands/hello.yaml` exists and cannot be read. -/
def brokenConfig : ConfigFiles :=
  { FileExists := fun path => path == "commands/hello.yaml"
    Unmarshal := fun _ => Except.error "yaml: unmarshal errors" }

/-- Config files: none exists. -/
def noConfig : ConfigFiles :=
  { FileExists := fun _ => false
    Unmarshal := fun _ => Except.error "yaml: unmarshal errors" }

/-- A bot that accepts one `Post` and refuses every later one. -/
def busyBot : Bot :=
  { Name := "slack"
    Post := fun hist _ => if hist = [] then none else some "rate limited" }

/-- A deferred template that sends a notice to the channel `ops` and then
prints. -/
def notify : TextTemplate :=
  { RenderObject := fun _ =>
      { calls := [Call.sendMessage "notice" "ops"], result := Except.ok "done" }
    callError := fun e => "template: error calling sendMessage: " ++ e }

/-- A deferred template that sends a notice to the channel `ops` and then
fails. -/
def notifyAndFail : TextTemplate :=
  { RenderObject := fun _ =>
      { calls := [Call.sendMessage "notice" "ops"]
        result := Except.error "template: map has no entry for key" }
    callError := fun e => "template: error calling sendMessage: " ++ e }

/-- A file system with the follow-up and the two notifying templates. -/
def deferredFiles : Env :=
  { Content := fun path =>
      if path = "commands/followup.tmpl" then Except.ok "followup"
      else if path = "commands/notify.tmpl" then Except.ok "notify"
      else if path = "commands/broken.tmpl" then Except.ok "broken"
      else Except.error ("open " ++ path ++ ": no such file or directory")
    NewTextTemplate := fun _ content =>
      if content = "followup" then Except.ok followup
      else if content = "notify" then Except.ok notify
      else if content = "broken" then Except.ok notifyAndFail
      else Except.error "template: parse error"
    Sprint := fun v =>
      match v with
      | Value.str s => s
      | Value.null => "<nil>"
      | _ => "" }

/-- A goroutine of `After` for the template that sends a notice and fails. -/
def brokenTask : PostTask :=
  { de := executor, message := message, channel := channel
    post := { Name := "broken", Path := "commands/broken.tmpl", Obj := Value.null } }

/-- The executor of an invocation on the bot that accepts one `Post`. -/
def busyExecutor : DefaultExecutor := { executor with bot := busyBot }

/-- A goroutine of `After`, on the bot that accepts one `Post`, for the
follow-up. -/
def busyFollowupTask : PostTask :=
  { de := busyExecutor, message := message, channel := channel
    post := { Name := "followup", Path := "commands/followup.tmpl", Obj := Value.str "payload" } }

/-- A goroutine of `After`, on the bot that accepts one `Post`, for the
template that sends a notice and prints. -/
def busyNotifyTask : PostTask :=
  { de := busyExecutor, message := message, channel := channel
    post := { Name := "notify", Path := "commands/notify.tmpl", Obj := Value.null } }

/-- The same executor on a bot that cannot post. -/
def offlineExecutor : DefaultExecutor := { executor with bot := failingBot }

end Sample

/-! ## Theorems -/

section Execute

/-- When the executor is created and its render fails, `Execute` logs the
error and returns the configured generic message, no executor, no message and
no attachments. -/
theorem Execute_render_error_generic (env : Env) (gid elapsed : Nat) (dc : DefaultCommand)
    (w : World) (bot : Bot) (user : User) (params : ExecuteParams) (executor : DefaultExecutor)
    (hnew : NewExecutor env (dc.getNameWithGroup "_") dc.path dc bot user params
      = Except.ok executor)
    (hfail : (executor.execute env gid elapsed w
      (Value.invocation params bot.Name user.ID (dc.getNameWithGroup "/"))).2.2.2.2 ≠ none) :
    (dc.Execute env gid elapsed w bot user params).2.err = some dc.processor.options.Error ∧
      (dc.Execute env gid elapsed w bot user params).2.executor.isNone = true ∧
      (dc.Execute env gid elapsed w bot user params).2.message = "" ∧
      (dc.Execute env gid elapsed w bot user params).2.attachments = [] := by
  unfold DefaultCommand.Execute
  simp only [hnew]
  rcases hex : executor.execute env gid elapsed w
      (Value.invocation params bot.Name user.ID (dc.getNameWithGroup "/")) with
    ⟨de1, w1, text, atts, err⟩
  rw [hex] at hfail
  cases err with
  | none => exact absurd rfl hfail
  | some e => simp

/-- C1, the code at the failing input: for a command whose template file can
no longer be read, `Execute` returns the text of the internal error (with the
path of the file), which is not the configured generic message. -/
theorem C1_Execute_returns_internal_error :
    (Sample.command.Execute Sample.noFiles 1 0 Sample.world Sample.bot Sample.user []).2.err
      = some ("Default couldn't read template commands/hello.tmpl, error " ++
          "open commands/hello.tmpl: no such file or directory") ∧
    (Sample.command.Execute Sample.noFiles 1 0 Sample.world Sample.bot Sample.user []).2.err
      ≠ some Sample.command.processor.options.Error := by
  decide

end Execute

section Params

set_option maxRecDepth 100000 in
/-- C5: a command without configured `Params` (no config, or a config whose
`Params` is empty) gets exactly 10 patterns; pattern `i` is the sequence of
the groups `p0 .. p<i>` separated by the white-space-run pattern and has
`i + 1` groups; each pattern is a strict prefix of the next one, which is
longer. A command with configured `Params` gets exactly the configured list. -/
theorem C5_Params_default_positional_scheme (dc : DefaultCommand) :
    ((dc.config = none ∨ ∃ c, dc.config = some c ∧ c.Params = []) →
      dc.Params.length = 10 ∧
      (∀ i, i < 10 → dc.Params.get? i = some (positional i) ∧
        groupCount (positional i) = i + 1) ∧
      (∀ i, i < 9 → ∃ t, t ≠ "" ∧ positional (i + 1) = positional i ++ t ∧
        (positional i).length < (positional (i + 1)).length)) ∧
    (∀ c, dc.config = some c → c.Params ≠ [] → dc.Params = c.Params) := by
  constructor
  · intro h
    have hp : dc.Params = (List.range 10).map positional := by
      rcases h with h | ⟨c, hc, hemp⟩
      · unfold DefaultCommand.Params
        rw [h]
        decide
      · unfold DefaultCommand.Params
        rw [hc]
        simp only [hemp]
        decide
    rw [hp]
    refine ⟨by decide, ?_, ?_⟩
    · decide
    · intro i hi
      refine ⟨"\\s+" ++ positionalGroup (i + 1), ?_, ?_⟩
      · interval_cases i <;> decide
      · interval_cases i <;> decide
  · intro c hc hne
    unfold DefaultCommand.Params
    rw [hc]
    cases hps : c.Params with
    | nil => exact absurd hps hne
    | cons x xs => simp [utils.IsEmptySlice, hps]

/-- C5 at a command without config and at a command with configured
parameters. -/
theorem C5_Params_default_positional_scheme_witness :
    Sample.command.config = none ∧ Sample.command.Params.length = 10 ∧
    Sample.command.Params.get? 1 = some "(?P<p0>\\S+)\\s+(?P<p1>\\S+)" ∧
    Sample.configured.Params = ["host", "port"] :=
  ⟨rfl, ((C5_Params_default_positional_scheme Sample.command).1 (Or.inl rfl)).1,
    (((C5_Params_default_positional_scheme Sample.command).1 (Or.inl rfl)).2.1 1
      (by decide)).1,
    (C5_Params_default_positional_scheme Sample.configured).2 _ rfl (by decide)⟩

end Params

section Calls

theorem stored_Store {α : Type} (m : sync.Map (List α)) (gid : Nat) (v : List α) :
    stored (m.Store gid v) gid = v := by
  simp [stored, sync.Map.Load, sync.Map.Store]

theorem stored_Delete {α : Type} (m : sync.Map (List α)) (gid : Nat) :
    stored (m.Delete gid) gid = [] := by
  simp [stored, sync.Map.Load, sync.Map.Delete]

theorem Store_other {α : Type} (m : sync.Map (List α)) (gid g : Nat) (v : List α)
    (h : g ≠ gid) : (m.Store gid v) g = m g := by
  simp [sync.Map.Store, h]

theorem Delete_other {α : Type} (m : sync.Map (List α)) (gid g : Nat) (h : g ≠ gid) :
    (m.Delete gid) g = m g := by
  simp [sync.Map.Delete, h]

/-- The executor after `fPostFile`: only the post store changes. -/
theorem fPostFile_fst (gid : Nat) (de : DefaultExecutor) (path : String) (obj : Value) :
    (de.fPostFile gid path obj).1 =
      { de with posts := de.posts.Store gid (stored de.posts gid ++
        [{ Name := filepath.Base (strings.TrimSuffix path (filepath.Ext path)), Path := path,
           Obj := obj }]) } := by
  unfold DefaultExecutor.fPostFile stored
  cases de.posts.Load gid <;> rfl

/-- The executor after `fAddAttachment`: only the attachment store changes. -/
theorem fAddAttachment_fst (env : Env) (gid : Nat) (de : DefaultExecutor) (title text : String)
    (data : Value) (typ : String) :
    (de.fAddAttachment env gid title text data typ).1 =
      { de with attachments := de.attachments.Store gid (stored de.attachments gid ++
        [{ Title := title, Text := text, Data := DefaultExecutor.dataBytes env data,
           Typ := typ }]) } := by
  unfold DefaultExecutor.fAddAttachment stored
  cases de.attachments.Load gid <;> rfl

/-- A host-function call leaves every field of the executor but the two stores
and the two flags as it is. -/
theorem call_fields (env : Env) (gid : Nat) (de : DefaultExecutor) (w : World) (c : Call) :
    (de.call env gid w c).1.command = de.command ∧ (de.call env gid w c).1.bot = de.bot ∧
    (de.call env gid w c).1.user = de.user ∧ (de.call env gid w c).1.params = de.params ∧
    (de.call env gid w c).1.template = de.template := by
  cases c <;>
    simp only [DefaultExecutor.call, DefaultExecutor.fAddAttachment, DefaultExecutor.fPostFile,
      DefaultExecutor.fPostCommand, DefaultExecutor.fPostTemplate,
      DefaultExecutor.fSetInvisible, DefaultExecutor.fSetError, and_self] <;>
    (split <;> simp)

/-- A host-function call on goroutine `gid` appends what it adds to the
sequences stored for `gid`. -/
theorem call_stored (env : Env) (gid : Nat) (de : DefaultExecutor) (w : World) (c : Call) :
    stored (de.call env gid w c).1.attachments gid = stored de.attachments gid ++ c.added env ∧
    stored (de.call env gid w c).1.posts gid = stored de.posts gid ++ c.recorded de.command := by
  cases c <;>
    simp only [DefaultExecutor.call, fAddAttachment_fst, fPostFile_fst,
      DefaultExecutor.fPostCommand, DefaultExecutor.fPostTemplate, DefaultExecutor.filePath,
      DefaultExecutor.fSetInvisible, DefaultExecutor.fSetError, Call.added, Call.recorded,
      Call.target, stored_Store, List.append_nil, and_self, true_and, and_true] <;>
    first
      | rfl
      | (split <;> simp)

/-- A host-function call on goroutine `gid` leaves what is stored for any
other goroutine as it is. -/
theorem call_other (env : Env) (gid g : Nat) (h : g ≠ gid) (de : DefaultExecutor) (w : World)
    (c : Call) :
    (de.call env gid w c).1.attachments g = de.attachments g ∧
    (de.call env gid w c).1.posts g = de.posts g := by
  cases c <;>
    simp only [DefaultExecutor.call, fAddAttachment_fst, fPostFile_fst,
      DefaultExecutor.fPostCommand, DefaultExecutor.fPostTemplate,
      DefaultExecutor.fSetInvisible, DefaultExecutor.fSetError, Store_other _ _ _ _ h,
      and_self] <;>
    (split <;> simp)

end Calls

section Strings

theorem trimRight_append (f : Char → Bool) (xs : List Char) :
    strings.trimRight f xs ++ (xs.reverse.takeWhile f).reverse = xs := by
  unfold strings.trimRight
  rw [← List.reverse_append, List.takeWhile_append_dropWhile, List.reverse_reverse]

theorem trimRight_getLast (f : Char → Bool) (xs : List Char) (c : Char)
    (h : (strings.trimRight f xs).getLast? = some c) : f c = false := by
  unfold strings.trimRight at h
  rw [List.getLast?_reverse] at h
  have := List.head?_dropWhile_not f xs.reverse
  rw [h] at this
  exact this

theorem trimRight_head (f : Char → Bool) (xs : List Char) (c : Char)
    (h : (strings.trimRight f xs).head? = some c) : xs.head? = some c := by
  have hx := trimRight_append f xs
  rw [← hx, List.head?_append, h]
  rfl

theorem trimLeft_head (f : Char → Bool) (xs : List Char) (c : Char)
    (h : (strings.trimLeft f xs).head? = some c) : f c = false := by
  unfold strings.trimLeft at h
  have := List.head?_dropWhile_not f xs
  rw [h] at this
  exact this

/-- The string `strings.TrimSpace s` is `s` without a leading and a trailing run of
white space, and it neither starts nor ends with white space. -/
theorem TrimSpace_spec (s : String) :
    (∃ l r : List Char, s.data = l ++ (strings.TrimSpace s).data ++ r ∧
      (∀ c ∈ l, unicode.IsSpace c = true) ∧ (∀ c ∈ r, unicode.IsSpace c = true)) ∧
    (∀ c, (strings.TrimSpace s).data.head? = some c → unicode.IsSpace c = false) ∧
    (∀ c, (strings.TrimSpace s).data.getLast? = some c → unicode.IsSpace c = false) := by
  refine ⟨⟨s.data.takeWhile unicode.IsSpace,
    ((strings.trimLeft unicode.IsSpace s.data).reverse.takeWhile unicode.IsSpace).reverse,
    ?_, ?_, ?_⟩, ?_, ?_⟩
  · show s.data = _ ++ strings.trimRight unicode.IsSpace (strings.trimLeft unicode.IsSpace s.data)
      ++ _
    rw [List.append_assoc, trimRight_append]
    exact (List.takeWhile_append_dropWhile unicode.IsSpace s.data).symm
  · intro c hc
    exact List.mem_takeWhile_imp hc
  · intro c hc
    exact List.mem_takeWhile_imp (List.mem_reverse.mp hc)
  · intro c hc
    exact trimLeft_head _ _ _ (trimRight_head _ _ _ hc)
  · intro c hc
    exact trimRight_getLast _ _ _ hc

end Strings

section Render

/-- The calls of a script that all succeed append what they add to the
sequences stored for the goroutine, in call order. -/
theorem calls_ok (env : Env) (gid : Nat) :
    ∀ (cs : List Call) (de : DefaultExecutor) (w : World) (de1 : DefaultExecutor) (w1 : World),
      DefaultExecutor.calls env gid cs de w = (de1, w1, none) →
      stored de1.attachments gid = stored de.attachments gid ++ cs.flatMap (Call.added env) ∧
      stored de1.posts gid = stored de.posts gid ++ cs.flatMap (Call.recorded de.command) := by
  intro cs
  induction cs with
  | nil =>
    intro de w de1 w1 h
    simp only [DefaultExecutor.calls, Prod.mk.injEq] at h
    obtain ⟨rfl, -, -⟩ := h
    simp
  | cons c cs ih =>
    intro de w de1 w1 h
    have hs := call_stored env gid de w c
    have hf := (call_fields env gid de w c).1
    rcases hc : de.call env gid w c with ⟨de2, w2, r⟩
    rw [hc] at hs hf
    simp only [DefaultExecutor.calls, hc] at h
    cases r with
    | error e => simp at h
    | ok v =>
      simp only at h
      obtain ⟨h1, h2⟩ := ih de2 w2 de1 w1 h
      simp only at hs hf
      rw [h1, h2, hs.1, hs.2, hf]
      simp [List.flatMap_cons, List.append_assoc]

/-- The calls of a script on goroutine `gid` leave what is stored for any
other goroutine, and the command of the executor, as they are. -/
theorem calls_other (env : Env) (gid g : Nat) (h : g ≠ gid) :
    ∀ (cs : List Call) (de : DefaultExecutor) (w : World),
      (DefaultExecutor.calls env gid cs de w).1.attachments g = de.attachments g ∧
      (DefaultExecutor.calls env gid cs de w).1.posts g = de.posts g := by
  intro cs
  induction cs with
  | nil => intro de w; simp [DefaultExecutor.calls]
  | cons c cs ih =>
    intro de w
    have hs := call_other env gid g h de w c
    rcases hc : de.call env gid w c with ⟨de2, w2, r⟩
    rw [hc] at hs
    simp only [DefaultExecutor.calls, hc]
    cases r with
    | error e => exact hs
    | ok v =>
      simp only
      rw [(ih de2 w2).1, (ih de2 w2).2]
      exact hs

theorem RenderObject_ok (env : Env) (gid : Nat) (de : DefaultExecutor) (w : World) (obj : Value)
    (de1 : DefaultExecutor) (w1 : World) (b : String)
    (hok : de.RenderObject env gid w obj = (de1, w1, Except.ok b)) :
    DefaultExecutor.calls env gid (de.template.RenderObject obj).calls de w = (de1, w1, none) := by
  simp only [DefaultExecutor.RenderObject] at hok
  rcases hc : DefaultExecutor.calls env gid (de.template.RenderObject obj).calls de w with
    ⟨de2, w2, r⟩
  rw [hc] at hok
  cases r with
  | some e => simp at hok
  | none =>
    simp only [Prod.mk.injEq] at hok
    obtain ⟨rfl, rfl, -⟩ := hok
    rfl

theorem RenderObject_other (env : Env) (gid g : Nat) (h : g ≠ gid) (de : DefaultExecutor)
    (w : World) (obj : Value) :
    (de.RenderObject env gid w obj).1.attachments g = de.attachments g ∧
    (de.RenderObject env gid w obj).1.posts g = de.posts g := by
  have hc := calls_other env gid g h (de.template.RenderObject obj).calls de w
  simp only [DefaultExecutor.RenderObject]
  rcases hcs : DefaultExecutor.calls env gid (de.template.RenderObject obj).calls de w with
    ⟨de2, w2, r⟩
  rw [hcs] at hc
  cases r <;> exact hc

/-- The result of `render` when the engine returns output. -/
theorem render_ok (env : Env) (gid : Nat) (de : DefaultExecutor) (w : World) (obj : Value)
    (de1 : DefaultExecutor) (w1 : World) (b : String)
    (hok : de.RenderObject env gid w obj = (de1, w1, Except.ok b)) :
    de.render env gid w obj =
      ({ de1 with attachments := de1.attachments.Delete gid }, w1, strings.TrimSpace b,
        stored de1.attachments gid, none) := by
  unfold DefaultExecutor.render
  rw [hok]
  simp only [sync.Map.LoadAndDelete, stored, sync.Map.Load]
  cases de1.attachments gid <;> rfl

/-- The result of `render` when the engine returns an error. -/
theorem render_error (env : Env) (gid : Nat) (de : DefaultExecutor) (w : World) (obj : Value)
    (de1 : DefaultExecutor) (w1 : World) (e : String)
    (herr : de.RenderObject env gid w obj = (de1, w1, Except.error e)) :
    de.render env gid w obj =
      ({ de1 with attachments := de1.attachments.Delete gid, posts := de1.posts.Delete gid },
        w1, "", [], some e) := by
  unfold DefaultExecutor.render
  rw [herr]

/-- The attachments that a successful render returns: what was stored for the
goroutine, then what the calls of the script added, in call order. -/
theorem render_ok_attachments (env : Env) (gid : Nat) (de : DefaultExecutor) (w : World)
    (obj : Value) (de1 : DefaultExecutor) (w1 : World) (b : String)
    (hok : de.RenderObject env gid w obj = (de1, w1, Except.ok b)) :
    (de.render env gid w obj).2.2.2.1 =
      stored de.attachments gid ++ (de.template.RenderObject obj).calls.flatMap (Call.added env) := by
  rw [render_ok env gid de w obj de1 w1 b hok]
  exact (calls_ok env gid _ de w de1 w1 (RenderObject_ok env gid de w obj de1 w1 b hok)).1

/-- A render on goroutine `gid` leaves what is stored for any other goroutine
as it is. -/
theorem render_other (env : Env) (gid g : Nat) (h : g ≠ gid) (de : DefaultExecutor)
    (w : World) (obj : Value) :
    (de.render env gid w obj).1.attachments g = de.attachments g ∧
    (de.render env gid w obj).1.posts g = de.posts g := by
  have hc := RenderObject_other env gid g h de w obj
  rcases hr : de.RenderObject env gid w obj with ⟨de1, w1, r⟩
  rw [hr] at hc
  cases r with
  | error e =>
    rw [render_error env gid de w obj de1 w1 e hr]
    simp only [Delete_other _ _ _ h]
    exact hc
  | ok b =>
    rw [render_ok env gid de w obj de1 w1 b hr]
    simp only [Delete_other _ _ _ h]
    exact hc

/-- Interleaved calls of several goroutines: the sequence stored for a
goroutine grows by the attachments of its own calls only. -/
theorem interleaved_stored (env : Env) (g : Nat) :
    ∀ (sched : List (Nat × Call)) (de : DefaultExecutor) (w : World),
      stored (DefaultExecutor.interleaved env sched de w).1.attachments g =
        stored de.attachments g ++
          (sched.filter (fun gc => gc.1 = g)).flatMap (fun gc => gc.2.added env) := by
  intro sched
  induction sched with
  | nil => intro de w; simp [DefaultExecutor.interleaved]
  | cons gc rest ih =>
    intro de w
    simp only [DefaultExecutor.interleaved]
    rw [ih]
    by_cases hg : gc.1 = g
    · have hs := (call_stored env gc.1 de w gc.2).1
      rw [hg] at hs
      rw [hg, hs]
      simp [List.filter_cons, hg, List.flatMap_cons, List.append_assoc]
    · have ho := (call_other env gc.1 g (fun h => hg h.symm) de w gc.2).1
      have : stored (de.call env gc.1 w gc.2).1.attachments g = stored de.attachments g := by
        simp only [stored, sync.Map.Load, ho]
      rw [this]
      simp [List.filter_cons, hg]

/-- C2: a render whose evaluation succeeds with output `b` returns `b` without
its leading and trailing white space, the attachments stored for the
goroutine followed by those that the `addAttachment` calls of this render
added, in call order (exactly the latter on an executor that holds none yet,
as after `NewExecutor`), and no error; afterwards nothing is stored for the
goroutine in the attachment store, so collecting again yields nothing, while
the deferred posts recorded by this render are still stored. -/
theorem C2_render_success_collects_attachments (env : Env) (gid : Nat) (de : DefaultExecutor)
    (w : World) (obj : Value) (de1 : DefaultExecutor) (w1 : World) (b : String)
    (hok : de.RenderObject env gid w obj = (de1, w1, Except.ok b)) :
    (de.render env gid w obj).2.2 =
      (strings.TrimSpace b,
        stored de.attachments gid ++
          (de.template.RenderObject obj).calls.flatMap (Call.added env), none) ∧
    (de.attachments.Load gid = none →
      (de.render env gid w obj).2.2.2.1 =
        (de.template.RenderObject obj).calls.flatMap (Call.added env)) ∧
    (de.render env gid w obj).1.attachments.Load gid = none ∧
    ((de.render env gid w obj).1.attachments.LoadAndDelete gid).2 = none ∧
    stored (de.render env gid w obj).1.posts gid =
      stored de.posts gid ++
        (de.template.RenderObject obj).calls.flatMap (Call.recorded de.command) ∧
    ((∃ l r : List Char, b.data = l ++ (strings.TrimSpace b).data ++ r ∧
        (∀ c ∈ l, unicode.IsSpace c = true) ∧ (∀ c ∈ r, unicode.IsSpace c = true)) ∧
      (∀ c, (strings.TrimSpace b).data.head? = some c → unicode.IsSpace c = false) ∧
      (∀ c, (strings.TrimSpace b).data.getLast? = some c → unicode.IsSpace c = false)) := by
  have hatts := render_ok_attachments env gid de w obj de1 w1 b hok
  have hcalls := calls_ok env gid _ de w de1 w1 (RenderObject_ok env gid de w obj de1 w1 b hok)
  have hr := render_ok env gid de w obj de1 w1 b hok
  refine ⟨?_, ?_, ?_, ?_, ?_, TrimSpace_spec b⟩
  · rw [← hatts, hr]
  · intro hfresh
    rw [hatts]
    simp [stored, hfresh]
  · rw [hr]
    simp [sync.Map.Load, sync.Map.Delete]
  · rw [hr]
    simp [sync.Map.LoadAndDelete, sync.Map.Delete]
  · rw [hr]
    exact hcalls.2

/-- C2 on the sample executor: the text is trimmed, the two attachments come
back in call order, the attachment store is empty and the post is kept. -/
theorem C2_render_success_collects_attachments_witness :
    (Sample.executor.render Sample.files 7 Sample.world Value.null).2.2 =
      ("hello world",
        [{ Title := "report", Text := "first", Data := "a,b", Typ := "file" },
         { Title := "chart", Text := "second", Data := "png", Typ := "image" }], none) ∧
    stored (Sample.executor.render Sample.files 7 Sample.world Value.null).1.posts 7 =
      [{ Name := "followup", Path := "commands/followup.tmpl", Obj := Value.str "payload" }] :=
  ⟨(C2_render_success_collects_attachments Sample.files 7 Sample.executor Sample.world
      Value.null (Sample.executor.RenderObject Sample.files 7 Sample.world Value.null).1
      (Sample.executor.RenderObject Sample.files 7 Sample.world Value.null).2.1
      "  hello world \n" rfl).1.trans (by decide),
    (C2_render_success_collects_attachments Sample.files 7 Sample.executor Sample.world
      Value.null (Sample.executor.RenderObject Sample.files 7 Sample.world Value.null).1
      (Sample.executor.RenderObject Sample.files 7 Sample.world Value.null).2.1
      "  hello world \n" rfl).2.2.2.2.1.trans (by decide)⟩

/-- C3: a render whose evaluation fails, whatever the executor held and
whatever calls were made before the error, returns the empty text, no
attachment and that error; afterwards nothing is stored for the goroutine,
neither attachments nor deferred posts, so that `After` starts no goroutine
and a later successful render returns only the attachments of its own
calls. -/
theorem C3_render_error_discards (env : Env) (gid : Nat) (de : DefaultExecutor) (w : World)
    (obj : Value) (de1 : DefaultExecutor) (w1 : World) (e : String)
    (herr : de.RenderObject env gid w obj = (de1, w1, Except.error e)) :
    (de.render env gid w obj).2.2 = ("", [], some e) ∧
    (de.render env gid w obj).1.attachments.Load gid = none ∧
    (de.render env gid w obj).1.posts.Load gid = none ∧
    (∀ message channel,
      ((de.render env gid w obj).1.After gid message channel).2.1 = []) ∧
    (∀ (w2 : World) (obj2 : Value) (de3 : DefaultExecutor) (w3 : World) (b : String),
      (de.render env gid w obj).1.RenderObject env gid w2 obj2 = (de3, w3, Except.ok b) →
      ((de.render env gid w obj).1.render env gid w2 obj2).2.2.2.1 =
        ((de.render env gid w obj).1.template.RenderObject obj2).calls.flatMap
          (Call.added env)) := by
  have hr := render_error env gid de w obj de1 w1 e herr
  refine ⟨?_, ?_, ?_, ?_, ?_⟩
  · rw [hr]
  · rw [hr]
    simp [sync.Map.Load, sync.Map.Delete]
  · rw [hr]
    simp [sync.Map.Load, sync.Map.Delete]
  · intro message channel
    rw [hr]
    simp [DefaultExecutor.After, sync.Map.LoadAndDelete, sync.Map.Delete]
  · intro w2 obj2 de3 w3 b hok
    rw [render_ok_attachments env gid _ w2 obj2 de3 w3 b hok]
    rw [hr]
    simp [stored, sync.Map.Load, sync.Map.Delete]

/-- C3 on the sample executor with the failing template: the two attachments
and the post of the failed render are gone. -/
theorem C3_render_error_discards_witness :
    (Sample.failingExecutor.render Sample.files 7 Sample.world Value.null).2.2 =
      ("", [], some "template: map has no entry for key") ∧
    (Sample.failingExecutor.render Sample.files 7 Sample.world Value.null).1.posts.Load 7 =
      none :=
  ⟨(C3_render_error_discards Sample.files 7 Sample.failingExecutor Sample.world Value.null
      (Sample.failingExecutor.RenderObject Sample.files 7 Sample.world Value.null).1
      (Sample.failingExecutor.RenderObject Sample.files 7 Sample.world Value.null).2.1
      "template: map has no entry for key" rfl).1,
    (C3_render_error_discards Sample.files 7 Sample.failingExecutor Sample.world Value.null
      (Sample.failingExecutor.RenderObject Sample.files 7 Sample.world Value.null).1
      (Sample.failingExecutor.RenderObject Sample.files 7 Sample.world Value.null).2.1
      "template: map has no entry for key" rfl).2.2.1⟩

end Render

section Isolation

/-- The executor that `NewExecutor` returns holds nothing and has no flag set. -/
theorem NewExecutor_fresh (env : Env) (name path : String) (command : DefaultCommand) (bot : Bot)
    (user : User) (params : ExecuteParams) (de : DefaultExecutor)
    (h : NewExecutor env name path command bot user params = Except.ok de) :
    de.attachments = sync.Map.empty ∧ de.posts = sync.Map.empty ∧ de.visible = none ∧
    de.error = none ∧ de.command = command ∧ de.bot = bot ∧ de.user = user ∧
    de.params = params ∧ de.message = none ∧ de.channel = none := by
  unfold NewExecutor at h
  cases ht : NewExecutorTemplate env name path with
  | error err => rw [ht] at h; simp at h
  | ok template =>
    rw [ht] at h
    simp only [Except.ok.injEq] at h
    subst h
    simp

/-- C4: `NewExecutor` gives an invocation empty attachment and deferred-post
stores and unset flags; and, the stores being maps keyed by goroutine id, a
call of `addAttachment`, `postFile`, `postCommand`, `postTemplate` or a render
on goroutine `g1` leaves what is stored for any other goroutine `g2` as it is,
so that, however the calls of several goroutines interleave, the sequence
collected for a goroutine is what was stored for it followed by exactly the
attachments added by its own calls, in call order. -/
theorem C4_executions_isolated (env : Env) :
    (∀ (name path : String) (command : DefaultCommand) (bot : Bot) (user : User)
        (params : ExecuteParams) (de : DefaultExecutor),
      NewExecutor env name path command bot user params = Except.ok de →
      (∀ g, de.attachments.Load g = none ∧ de.posts.Load g = none) ∧
      de.visible = none ∧ de.error = none) ∧
    (∀ (g1 g2 : Nat), g1 ≠ g2 → ∀ (de : DefaultExecutor) (w : World),
      (∀ title text data typ,
        (de.fAddAttachment env g1 title text data typ).1.attachments.Load g2 =
          de.attachments.Load g2 ∧
        (de.fAddAttachment env g1 title text data typ).1.posts.Load g2 = de.posts.Load g2) ∧
      (∀ path obj,
        (de.fPostFile g1 path obj).1.attachments.Load g2 = de.attachments.Load g2 ∧
        (de.fPostFile g1 path obj).1.posts.Load g2 = de.posts.Load g2 ∧
        (de.fPostCommand g1 path obj).1.attachments.Load g2 = de.attachments.Load g2 ∧
        (de.fPostCommand g1 path obj).1.posts.Load g2 = de.posts.Load g2 ∧
        (de.fPostTemplate g1 path obj).1.attachments.Load g2 = de.attachments.Load g2 ∧
        (de.fPostTemplate g1 path obj).1.posts.Load g2 = de.posts.Load g2) ∧
      (∀ obj,
        (de.render env g1 w obj).1.attachments.Load g2 = de.attachments.Load g2 ∧
        (de.render env g1 w obj).1.posts.Load g2 = de.posts.Load g2)) ∧
    (∀ (g : Nat) (sched : List (Nat × Call)) (de : DefaultExecutor) (w : World),
      stored (DefaultExecutor.interleaved env sched de w).1.attachments g =
        stored de.attachments g ++
          (sched.filter (fun gc => gc.1 = g)).flatMap (fun gc => gc.2.added env)) := by
  refine ⟨?_, ?_, ?_⟩
  · intro name path command bot user params de h
    obtain ⟨ha, hp, hv, he, -⟩ := NewExecutor_fresh env name path command bot user params de h
    refine ⟨fun g => ?_, hv, he⟩
    rw [ha, hp]
    exact ⟨rfl, rfl⟩
  · intro g1 g2 hne de w
    have h21 : g2 ≠ g1 := fun h => hne h.symm
    refine ⟨?_, ?_, ?_⟩
    · intro title text data typ
      rw [fAddAttachment_fst]
      exact ⟨Store_other _ _ _ _ h21, rfl⟩
    · intro path obj
      simp only [DefaultExecutor.fPostCommand, DefaultExecutor.fPostTemplate, fPostFile_fst]
      exact ⟨trivial, Store_other _ _ _ _ h21, trivial, Store_other _ _ _ _ h21, trivial,
        Store_other _ _ _ _ h21⟩
    · intro obj
      exact render_other env g1 g2 h21 de w obj
  · intro g sched de w
    exact interleaved_stored env g sched de w

/-- C4 on the sample executor: goroutine 1 adds an attachment and renders
while goroutine 2 has a stored attachment and a stored post; two interleaved
goroutines each collect their own attachment. -/
theorem C4_executions_isolated_witness :
    (1 : Nat) ≠ 2 ∧
    ((Sample.executor.fAddAttachment Sample.files 2 "other" "" Value.null "file").1.render
      Sample.files 1 Sample.world Value.null).1.attachments.Load 2 =
      (Sample.executor.fAddAttachment Sample.files 2 "other" "" Value.null "file").1.attachments.Load
        2 ∧
    stored (DefaultExecutor.interleaved Sample.files
      [(1, Call.addAttachment "one" "" (Value.str "1") "file"),
       (2, Call.addAttachment "two" "" (Value.str "2") "file")]
      Sample.executor Sample.world).1.attachments 1 =
      [{ Title := "one", Text := "", Data := "1", Typ := "file" }] :=
  ⟨by decide,
    (((C4_executions_isolated Sample.files).2.1 1 2 (by decide)
      (Sample.executor.fAddAttachment Sample.files 2 "other" "" Value.null "file").1
      Sample.world).2.2 Value.null).1,
    ((C4_executions_isolated Sample.files).2.2 1 _ Sample.executor Sample.world).trans
      (by decide)⟩

end Isolation

section Send

/-- A string is empty for `utils.IsEmpty` exactly when all its characters are
white space. -/
theorem IsEmpty_iff (s : String) :
    utils.IsEmpty s = true ↔ ∀ c ∈ s.data, unicode.IsSpace c = true := by
  unfold utils.IsEmpty strings.TrimSpace
  simp only [List.isEmpty_iff]
  constructor
  · intro h c hc
    have h1 := trimRight_append unicode.IsSpace (strings.trimLeft unicode.IsSpace s.data)
    rw [h, List.nil_append] at h1
    have h2 := List.takeWhile_append_dropWhile unicode.IsSpace s.data
    rw [← h2] at hc
    rcases List.mem_append.mp hc with hc | hc
    · exact List.mem_takeWhile_imp hc
    · have hc2 : c ∈ strings.trimLeft unicode.IsSpace s.data := hc
      rw [← h1] at hc2
      exact List.mem_takeWhile_imp (List.mem_reverse.mp hc2)
  · intro h
    have : strings.trimLeft unicode.IsSpace s.data = [] := List.dropWhile_eq_nil_iff.mpr h
    rw [this]
    rfl

/-- Every character of a piece of a split sequence is a character of the
sequence. -/
theorem splitChars_mem (sep : Char) :
    ∀ (cs : List Char) (piece : List Char), piece ∈ strings.splitChars sep cs →
      ∀ c ∈ piece, c ∈ cs := by
  intro cs
  induction cs with
  | nil =>
    intro piece hp c hc
    simp only [strings.splitChars, List.mem_singleton] at hp
    subst hp
    exact absurd hc (List.not_mem_nil c)
  | cons x xs ih =>
    intro piece hp c hc
    simp only [strings.splitChars] at hp
    by_cases hx : x = sep
    · simp only [hx, if_true, List.mem_cons] at hp
      rcases hp with hp | hp
      · subst hp
        exact absurd hc (List.not_mem_nil c)
      · exact List.mem_cons_of_mem _ (ih piece hp c hc)
    · simp only [hx, if_false] at hp
      cases hsp : strings.splitChars sep xs with
      | nil =>
        rw [hsp] at hp
        simp only [List.mem_singleton] at hp
        subst hp
        simp only [List.mem_singleton] at hc
        subst hc
        exact List.mem_cons_self _ _
      | cons q rest =>
        rw [hsp] at hp
        simp only [List.mem_cons] at hp
        rcases hp with hp | hp
        · subst hp
          rcases List.mem_cons.mp hc with hc | hc
          · subst hc
            exact List.mem_cons_self _ _
          · exact List.mem_cons_of_mem _ (ih q (by rw [hsp]; exact List.mem_cons_self _ _) c hc)
        · exact List.mem_cons_of_mem _
            (ih piece (by rw [hsp]; exact List.mem_cons_of_mem _ hp) c hc)

/-- A channels string with a non-blank entry is not empty. -/
theorem IsEmpty_of_entry (channels : String)
    (h : ∃ e ∈ strings.Split channels ',', utils.IsEmpty e = false) :
    utils.IsEmpty channels = false := by
  obtain ⟨e, he, hne⟩ := h
  cases hch : utils.IsEmpty channels with
  | false => rfl
  | true =>
    have hall := (IsEmpty_iff channels).mp hch
    have : utils.IsEmpty e = true := by
      rw [IsEmpty_iff]
      intro c hc
      simp only [strings.Split, List.mem_map] at he
      obtain ⟨piece, hp, rfl⟩ := he
      exact hall c (splitChars_mem ',' channels.data piece hp c hc)
    rw [this] at hne
    exact absurd hne (by decide)

/-- The delivery loop posts to every channel of its list, in order. -/
theorem sendLoop_posted (bot : Bot) (message : String) (atts : List Attachment) :
    ∀ (chs : List String) (w : World) (err : Option String),
      (DefaultExecutor.sendLoop bot message atts chs w err).1.posted =
        w.posted ++ chs.map (fun ch =>
          { channel := ch, text := message, attachments := atts, message := none }) := by
  intro chs
  induction chs with
  | nil => intro w err; simp [DefaultExecutor.sendLoop]
  | cons ch rest ih =>
    intro w err
    simp only [DefaultExecutor.sendLoop]
    split <;> (rw [ih]; simp)

/-- The delivery loop returns the error of the last failing `Post`, and the
error it started with when no `Post` fails. -/
theorem sendLoop_error (bot : Bot) (message : String) (atts : List Attachment) :
    ∀ (chs : List String) (w : World) (err : Option String),
      (DefaultExecutor.sendLoop bot message atts chs w err).2 =
        (match (postErrors bot w.posted (chs.map (fun ch =>
            { channel := ch, text := message, attachments := atts, message := none }))).getLast? with
          | some e => some e
          | none => err) := by
  intro chs
  induction chs with
  | nil => intro w err; simp [DefaultExecutor.sendLoop, postErrors, postOutcomes]
  | cons ch rest ih =>
    intro w err
    simp only [DefaultExecutor.sendLoop, List.map_cons, postErrors, postOutcomes]
    cases hp : bot.Post w.posted
      { channel := ch, text := message, attachments := atts, message := none } with
    | none =>
      simp only [List.filterMap_cons, id]
      rw [ih]
      rfl
    | some e =>
      simp only [List.filterMap_cons, id]
      rw [ih]
      simp only [postErrors, List.getLast?_cons]
      cases (List.filterMap id (postOutcomes bot (w.posted ++
        [{ channel := ch, text := message, attachments := atts, message := none }])
        (List.map (fun ch =>
          ({ channel := ch, text := message, attachments := atts, message := none } : PostCall))
          rest))).getLast? <;> rfl

theorem TrimSpace_eq_empty_iff (s : String) :
    strings.TrimSpace s = "" ↔ utils.IsEmpty s = true := by
  unfold utils.IsEmpty
  rw [List.isEmpty_iff]
  constructor
  · intro h
    rw [h]
  · intro h
    exact String.ext h

/-- The channel list is empty after the blank entries are removed exactly when
every entry is blank. -/
theorem RemoveEmptyStrings_eq_nil_iff (items : List String) :
    RemoveEmptyStrings items = [] ↔ ∀ e ∈ items, utils.IsEmpty e = true := by
  unfold RemoveEmptyStrings
  rw [List.filter_eq_nil_iff]
  constructor
  · intro h e he
    have := h e he
    cases hv : utils.IsEmpty e with
    | true => rfl
    | false => rw [hv] at this; exact absurd rfl this
  · intro h e he
    rw [h e he]
    decide

/-- The result of `fSendMessageEx` when the three checks pass. -/
theorem fSendMessageEx_valid (de : DefaultExecutor) (w : World) (message channels : String)
    (params : SendParams) (hm : utils.IsEmpty message = false)
    (hc : utils.IsEmpty channels = false)
    (hn : RemoveEmptyStrings (strings.Split channels ',') ≠ []) :
    de.fSendMessageEx w message channels params =
      ((DefaultExecutor.sendLoop de.bot message (DefaultExecutor.sendAttachments params)
          (RemoveEmptyStrings (strings.Split channels ',')) w none).1, "",
        (DefaultExecutor.sendLoop de.bot message (DefaultExecutor.sendAttachments params)
          (RemoveEmptyStrings (strings.Split channels ',')) w none).2) := by
  unfold DefaultExecutor.fSendMessageEx
  have hl : ¬ (RemoveEmptyStrings (strings.Split channels ',')).length = 0 := by
    intro h
    exact hn (List.length_eq_zero.mp h)
  simp [hm, hc, hl]

/-- The result of `fSendMessageEx` when one of the three checks fails: an
error, and the world as it was. -/
theorem fSendMessageEx_invalid (de : DefaultExecutor) (w : World) (message channels : String)
    (params : SendParams)
    (h : utils.IsEmpty message = true ∨ utils.IsEmpty channels = true ∨
      RemoveEmptyStrings (strings.Split channels ',') = []) :
    (de.fSendMessageEx w message channels params).1 = w ∧
    (de.fSendMessageEx w message channels params).2.1 = "" ∧
    (de.fSendMessageEx w message channels params).2.2 ≠ none := by
  unfold DefaultExecutor.fSendMessageEx
  by_cases hm : utils.IsEmpty message = true
  · simp [hm]
  · by_cases hc : utils.IsEmpty channels = true
    · simp [hm, hc]
    · rcases h with h | h | h
      · exact absurd h hm
      · exact absurd h hc
      · simp [hm, hc, h]

/-- The `Post` calls of `fSendMessageEx` when the message is not empty and the
channels string has a non-blank entry. -/
theorem fSendMessageEx_posted (de : DefaultExecutor) (w : World)
    (message channels : String) (params : SendParams)
    (hm : utils.IsEmpty message = false)
    (hc : ∃ e ∈ strings.Split channels ',', utils.IsEmpty e = false) :
    (de.fSendMessageEx w message channels params).1.posted =
      w.posted ++ ((strings.Split channels ',').filter (fun e => !utils.IsEmpty e)).map
        (fun ch => { channel := ch, text := message,
                     attachments := DefaultExecutor.sendAttachments params, message := none }) := by
  have hn : RemoveEmptyStrings (strings.Split channels ',') ≠ [] := by
    intro h
    obtain ⟨e, he, hne⟩ := hc
    rw [(RemoveEmptyStrings_eq_nil_iff _).mp h e he] at hne
    exact absurd hne (by decide)
  rw [fSendMessageEx_valid de w message channels params hm (IsEmpty_of_entry channels hc) hn]
  exact sendLoop_posted de.bot message _ _ w none

/-- C6 as stated fails: the message of one space is not the empty string and
the channels string `a` has a non-blank entry, yet `sendMessageEx(" ", "a", nil)`
returns the error of an empty message and makes no `Post` call. -/
theorem C6_sendMessageEx_blank_message_counterexample :
    (" " : String) ≠ "" ∧
    (∃ e ∈ strings.Split "a" ',', utils.IsEmpty e = false) ∧
    (Sample.executor.fSendMessageEx Sample.world " " "a" []).1.posted = [] ∧
    (Sample.executor.fSendMessageEx Sample.world " " "a" []).2.2 =
      some "SendMessageEx err => empty message" :=
  ⟨by decide, ⟨"a", by decide, by decide⟩, by decide, by decide⟩

/-- C6, amended: for a message that is not empty after trimming white space
(not empty for `utils.IsEmpty`, the test of the code) and a channels string
with at least one non-blank entry, whatever the bot answers to each `Post`,
`sendMessageEx` makes exactly one `Post` call per non-blank entry of the
split string, in the order of the string, with the message and without a
message to reply to, and no other `Post` call. -/
theorem C6_sendMessageEx_posts_every_channel (de : DefaultExecutor) (w : World)
    (message channels : String) (params : SendParams)
    (hm : utils.IsEmpty message = false)
    (hc : ∃ e ∈ strings.Split channels ',', utils.IsEmpty e = false) :
    (de.fSendMessageEx w message channels params).1.posted =
      w.posted ++ ((strings.Split channels ',').filter (fun e => !utils.IsEmpty e)).map
        (fun ch => { channel := ch, text := message,
                     attachments := DefaultExecutor.sendAttachments params, message := none }) :=
  fSendMessageEx_posted de w message channels params hm hc

/-- C6, amended, at `sendMessageEx("hello", "a,b,,c", nil)` on a bot whose every `Post`
fails: the calls are those for `a`, `b`, `c`, in that order. -/
theorem C6_sendMessageEx_posts_every_channel_witness :
    utils.IsEmpty "hello" = false ∧
    (Sample.offlineExecutor.fSendMessageEx Sample.world "hello" "a,b,,c" []).1.posted =
      [{ channel := "a", text := "hello", attachments := [], message := none },
       { channel := "b", text := "hello", attachments := [], message := none },
       { channel := "c", text := "hello", attachments := [], message := none }] :=
  ⟨by decide,
    (C6_sendMessageEx_posts_every_channel Sample.offlineExecutor Sample.world "hello" "a,b,,c" []
      (by decide) ⟨"a", by decide, by decide⟩).trans (by decide)⟩

/-- C7 as stated fails in its converse: for the message of one tab and the
channels string `a,b` none of the three cases holds (the message is not the
empty string, the channels string is not empty after trimming and has
non-blank entries), yet `sendMessageEx` returns an error and makes no `Post`
call. -/
theorem C7_sendMessageEx_blank_message_counterexample :
    ("\t" : String) ≠ "" ∧ strings.TrimSpace "a,b" ≠ "" ∧
    (∃ e ∈ strings.Split "a,b" ',', utils.IsEmpty e = false) ∧
    (Sample.executor.fSendMessageEx Sample.world "\t" "a,b" []).1 = Sample.world ∧
    (Sample.executor.fSendMessageEx Sample.world "\t" "a,b" []).2.2 =
      some "SendMessageEx err => empty message" :=
  ⟨by decide, by decide, ⟨"a", by decide, by decide⟩, by decide, by decide⟩

/-- C7, amended: `sendMessageEx`, and `sendMessage` which is `sendMessageEx`
without params, returns an error and makes no `Post` call (the world is as it
was) when the message is empty after trimming white space (empty for
`utils.IsEmpty`, the test of the code, which the empty string passes), when
the channels string is empty after trimming, or when every entry of the split
channels string is blank; when none of these holds, it makes at least one
`Post` call. -/
theorem C7_sendMessageEx_validation (de : DefaultExecutor) (w : World)
    (message channels : String) (params : SendParams) :
    utils.IsEmpty "" = true ∧
    de.fSendMessage w message channels = de.fSendMessageEx w message channels [] ∧
    ((utils.IsEmpty message = true ∨ strings.TrimSpace channels = "" ∨
        (∀ e ∈ strings.Split channels ',', utils.IsEmpty e = true)) →
      (de.fSendMessageEx w message channels params).1 = w ∧
      (de.fSendMessageEx w message channels params).2.2 ≠ none) ∧
    ((utils.IsEmpty message = false ∧ strings.TrimSpace channels ≠ "" ∧
        (∃ e ∈ strings.Split channels ',', utils.IsEmpty e = false)) →
      ∃ call calls,
        (de.fSendMessageEx w message channels params).1.posted = w.posted ++ call :: calls) := by
  refine ⟨by decide, rfl, ?_, ?_⟩
  · intro h
    have h2 : utils.IsEmpty message = true ∨ utils.IsEmpty channels = true ∨
        RemoveEmptyStrings (strings.Split channels ',') = [] := by
      rcases h with h | h | h
      · exact Or.inl h
      · exact Or.inr (Or.inl ((TrimSpace_eq_empty_iff channels).mp h))
      · exact Or.inr (Or.inr ((RemoveEmptyStrings_eq_nil_iff _).mpr h))
    have := fSendMessageEx_invalid de w message channels params h2
    exact ⟨this.1, this.2.2⟩
  · rintro ⟨hm, -, hc⟩
    have hp := fSendMessageEx_posted de w message channels params hm hc
    obtain ⟨e, he, hne⟩ := hc
    have hmem : e ∈ (strings.Split channels ',').filter (fun e => !utils.IsEmpty e) := by
      rw [List.mem_filter]
      exact ⟨he, by rw [hne]; rfl⟩
    cases hf : (strings.Split channels ',').filter (fun e => !utils.IsEmpty e) with
    | nil => rw [hf] at hmem; exact absurd hmem (List.not_mem_nil e)
    | cons x xs =>
      rw [hf] at hp
      exact ⟨_, _, hp⟩

/-- C7, amended, at `sendMessageEx("", "a", nil)`, `sendMessageEx("hi", "", nil)` and
`sendMessageEx("hi", ",,", nil)`: an error and no `Post` call; and at
`sendMessageEx("hi", "a", nil)`: a `Post` call. -/
theorem C7_sendMessageEx_validation_witness :
    ((Sample.executor.fSendMessageEx Sample.world "" "a" []).1 = Sample.world ∧
      (Sample.executor.fSendMessageEx Sample.world "" "a" []).2.2 ≠ none) ∧
    ((Sample.executor.fSendMessageEx Sample.world "hi" "" []).1 = Sample.world ∧
      (Sample.executor.fSendMessageEx Sample.world "hi" "" []).2.2 ≠ none) ∧
    ((Sample.executor.fSendMessageEx Sample.world "hi" ",," []).1 = Sample.world ∧
      (Sample.executor.fSendMessageEx Sample.world "hi" ",," []).2.2 ≠ none) ∧
    (∃ call calls, (Sample.executor.fSendMessageEx Sample.world "hi" "a" []).1.posted =
      Sample.world.posted ++ call :: calls) :=
  ⟨(C7_sendMessageEx_validation Sample.executor Sample.world "" "a" []).2.2.1
      (Or.inl (by decide)),
    (C7_sendMessageEx_validation Sample.executor Sample.world "hi" "" []).2.2.1
      (Or.inr (Or.inl (by decide))),
    (C7_sendMessageEx_validation Sample.executor Sample.world "hi" ",," []).2.2.1
      (Or.inr (Or.inr (by decide))),
    (C7_sendMessageEx_validation Sample.executor Sample.world "hi" "a" []).2.2.2
      ⟨by decide, by decide, "a", by decide, by decide⟩⟩

/-- C8 as stated fails: on a bot whose every `Post` fails,
`sendMessageEx("hello", "a,b", nil)` returns the error of the `Post` to `b`,
not the error of the first failing `Post`, the one to `a`. -/
theorem C8_sendMessageEx_first_error_counterexample :
    (Sample.offlineExecutor.fSendMessageEx Sample.world "hello" "a,b" []).2.2 =
      some "post failed: b" ∧
    (postErrors Sample.failingBot Sample.world.posted (sendCalls "hello" "a,b" [])).head? =
      some "post failed: a" ∧
    (Sample.offlineExecutor.fSendMessageEx Sample.world "hello" "a,b" []).2.2 ≠
      (postErrors Sample.failingBot Sample.world.posted (sendCalls "hello" "a,b" [])).head? := by
  decide

/-- C8, amended: the string that `sendMessageEx` returns is always empty, and
when the checks pass, the error it returns is the error of the last failing
`Post` (the one to the highest-indexed failing channel), and nil when no
`Post` fails. -/
theorem C8_sendMessageEx_returns_last_error (de : DefaultExecutor) (w : World)
    (message channels : String) (params : SendParams) :
    (de.fSendMessageEx w message channels params).2.1 = "" ∧
    (utils.IsEmpty message = false → utils.IsEmpty channels = false →
      RemoveEmptyStrings (strings.Split channels ',') ≠ [] →
      (de.fSendMessageEx w message channels params).2.2 =
        (postErrors de.bot w.posted (sendCalls message channels params)).getLast? ∧
      ((∀ o ∈ postOutcomes de.bot w.posted (sendCalls message channels params), o = none) →
        (de.fSendMessageEx w message channels params).2.2 = none)) := by
  have herr : utils.IsEmpty message = false → utils.IsEmpty channels = false →
      RemoveEmptyStrings (strings.Split channels ',') ≠ [] →
      (de.fSendMessageEx w message channels params).2.2 =
        (postErrors de.bot w.posted (sendCalls message channels params)).getLast? := by
    intro hm hc hn
    rw [fSendMessageEx_valid de w message channels params hm hc hn]
    simp only [sendLoop_error, sendCalls]
    cases (postErrors de.bot w.posted (List.map (fun ch =>
      ({ channel := ch, text := message, attachments := DefaultExecutor.sendAttachments params,
         message := none } : PostCall))
      (RemoveEmptyStrings (strings.Split channels ',')))).getLast? <;> rfl
  refine ⟨?_, ?_⟩
  · by_cases hv : utils.IsEmpty message = false ∧ utils.IsEmpty channels = false ∧
        RemoveEmptyStrings (strings.Split channels ',') ≠ []
    · rw [fSendMessageEx_valid de w message channels params hv.1 hv.2.1 hv.2.2]
    · refine (fSendMessageEx_invalid de w message channels params ?_).2.1
      by_cases hm : utils.IsEmpty message = true
      · exact Or.inl hm
      · by_cases hc : utils.IsEmpty channels = true
        · exact Or.inr (Or.inl hc)
        · refine Or.inr (Or.inr ?_)
          by_contra hn
          exact hv ⟨by simpa using hm, by simpa using hc, hn⟩
  · intro hm hc hn
    refine ⟨herr hm hc hn, fun hall => ?_⟩
    rw [herr hm hc hn]
    have : postErrors de.bot w.posted (sendCalls message channels params) = [] := by
      unfold postErrors
      rw [List.filterMap_eq_nil_iff]
      intro o ho
      rw [hall o ho]
      rfl
    rw [this]
    rfl

/-- C8, amended, on a bot whose every `Post` fails: the error returned for the
channels `a,b` is the one of the `Post` to `b`. -/
theorem C8_sendMessageEx_returns_last_error_witness :
    utils.IsEmpty "hello" = false ∧ utils.IsEmpty "a,b" = false ∧
    (Sample.offlineExecutor.fSendMessageEx Sample.world "hello" "a,b" []).2.2 =
      some "post failed: b" :=
  ⟨by decide, by decide,
    (((C8_sendMessageEx_returns_last_error Sample.offlineExecutor Sample.world "hello" "a,b"
      []).2 (by decide) (by decide) (by decide)).1).trans (by decide)⟩

end Send

section Paths

theorem extScan_spec :
    ∀ (r acc : List Char), filepath.extScan r acc = [] ∨
      ∃ t d, r = t ++ '.' :: d ∧ (∀ c ∈ t, os.IsPathSeparator c = false) ∧
        filepath.extScan r acc = '.' :: (t.reverse ++ acc) := by
  intro r
  induction r with
  | nil => intro acc; exact Or.inl rfl
  | cons c r ih =>
    intro acc
    by_cases hsep : os.IsPathSeparator c = true
    · left
      simp [filepath.extScan, hsep]
    · by_cases hdot : c = '.'
      · right
        refine ⟨[], r, by simp [hdot], by simp, ?_⟩
        subst hdot
        simp [filepath.extScan, hsep]
      · rcases ih (c :: acc) with h | ⟨t, d, hr, ht, he⟩
        · left
          simp [filepath.extScan, hsep, hdot, h]
        · right
          refine ⟨c :: t, d, by simp [hr], ?_, ?_⟩
          · intro x hx
            rcases List.mem_cons.mp hx with hx | hx
            · subst hx
              simpa using hsep
            · exact ht x hx
          · simp [filepath.extScan, hsep, hdot, he]

theorem trimSuffixChars_nil (cs : List Char) : strings.trimSuffixChars cs [] = cs := by
  simp [strings.trimSuffixChars]

theorem trimSuffixChars_append (d sfx : List Char) :
    strings.trimSuffixChars (d ++ sfx) sfx = d := by
  have h : sfx.isSuffixOf (d ++ sfx) = true :=
    List.isSuffixOf_iff_suffix.mpr (List.suffix_append d sfx)
  simp [strings.trimSuffixChars, h]

theorem baseChars_eq (cs : List Char) :
    filepath.baseChars cs =
      if cs = [] then ['.']
      else if (cs.reverse.dropWhile os.IsPathSeparator).takeWhile
          (fun c => !os.IsPathSeparator c) = [] then [os.PathSeparator]
      else ((cs.reverse.dropWhile os.IsPathSeparator).takeWhile
          (fun c => !os.IsPathSeparator c)).reverse := by
  unfold filepath.baseChars strings.trimRight
  simp only [List.reverse_reverse, List.reverse_eq_nil_iff]

theorem takeWhile_notsep_append (t l : List Char)
    (ht : ∀ c ∈ t, os.IsPathSeparator c = false) :
    (t ++ l).takeWhile (fun c => !os.IsPathSeparator c) =
      t ++ l.takeWhile (fun c => !os.IsPathSeparator c) := by
  induction t with
  | nil => rfl
  | cons x t ih =>
    have hx := ht x (List.mem_cons_self _ _)
    simp only [List.cons_append, List.takeWhile_cons, hx, Bool.not_false, if_true]
    rw [ih (fun c hc => ht c (List.mem_cons_of_mem _ hc))]

theorem dropWhile_sep_dot (t d : List Char)
    (ht : ∀ c ∈ t, os.IsPathSeparator c = false) :
    (t ++ '.' :: d).dropWhile os.IsPathSeparator = t ++ '.' :: d := by
  cases t with
  | nil =>
    have : os.IsPathSeparator '.' = false := by decide
    simp [List.dropWhile_cons, this]
  | cons x t =>
    have hx := ht x (List.mem_cons_self _ _)
    simp [List.dropWhile_cons, hx]

/-- Removing the extension of a path and then taking the last element gives
the last element of the path without the extension, unless the last element
of the path is nothing but the extension. -/
theorem baseChars_trimSuffixChars (cs : List Char)
    (h : filepath.extScan cs.reverse [] ≠ filepath.baseChars cs) :
    filepath.baseChars (strings.trimSuffixChars cs (filepath.extScan cs.reverse [])) =
      strings.trimSuffixChars (filepath.baseChars cs) (filepath.extScan cs.reverse []) := by
  rcases extScan_spec cs.reverse [] with he | ⟨t, d, hr, ht, he⟩
  · rw [he, trimSuffixChars_nil, trimSuffixChars_nil]
  · have hcs : cs = d.reverse ++ '.' :: t.reverse := by
      have := congrArg List.reverse hr
      simpa using this
    rw [List.append_nil] at he
    rw [he] at h ⊢
    have hne : cs ≠ [] := by
      rw [hcs]
      simp
    have hbase : filepath.baseChars cs =
        (d.takeWhile (fun c => !os.IsPathSeparator c)).reverse ++ '.' :: t.reverse := by
      rw [baseChars_eq, if_neg hne, hr, dropWhile_sep_dot t d ht,
        takeWhile_notsep_append t _ ht]
      have hdot : os.IsPathSeparator '.' = false := by decide
      simp [List.takeWhile_cons, hdot]
    rw [hbase] at h ⊢
    rw [trimSuffixChars_append]
    have hs : d.takeWhile (fun c => !os.IsPathSeparator c) ≠ [] := by
      intro hnil
      apply h
      rw [hnil]
      rfl
    have hleft : strings.trimSuffixChars cs ('.' :: t.reverse) = d.reverse := by
      rw [hcs]
      exact trimSuffixChars_append _ _
    rw [hleft]
    cases d with
    | nil => exact absurd rfl hs
    | cons x d =>
      have hx : os.IsPathSeparator x = false := by
        cases hv : os.IsPathSeparator x with
        | false => rfl
        | true =>
          exfalso
          apply hs
          simp [List.takeWhile_cons, hv]
      have hd : (x :: d).reverse ≠ [] := by simp
      rw [baseChars_eq, if_neg hd, List.reverse_reverse]
      have hdrop : (x :: d).dropWhile os.IsPathSeparator = x :: d := by
        simp [List.dropWhile_cons, hx]
      rw [hdrop, if_neg hs]

/-- The name that `fPostFile` gives a deferred post is the base file name of
the path without its extension, unless the last element of the path is
nothing but an extension (such as `.tmpl`). -/
theorem Base_TrimSuffix_Ext (path : String) (h : filepath.Ext path ≠ filepath.Base path) :
    filepath.Base (strings.TrimSuffix path (filepath.Ext path)) = baseNameWithoutExt path := by
  unfold baseNameWithoutExt filepath.Base strings.TrimSuffix filepath.Ext
  have h2 : filepath.extScan path.data.reverse [] ≠ filepath.baseChars path.data := by
    intro heq
    apply h
    unfold filepath.Base filepath.Ext
    rw [heq]
  rw [baseChars_trimSuffixChars path.data h2]

end Paths

section Posts

/-- C9 as stated fails: for a path whose last element is nothing but an
extension, `postFile("commands/.tmpl", data)` (and `postCommand(".tmpl", data)`
with the commands directory `commands`) records a post named `commands`, the
directory, while the base file name without its extension is empty. -/
theorem C9_post_name_counterexample :
    stored (Sample.executor.fPostFile 7 "commands/.tmpl" Value.null).1.posts 7 =
      [{ Name := "commands", Path := "commands/.tmpl", Obj := Value.null }] ∧
    stored (Sample.executor.fPostCommand 7 ".tmpl" Value.null).1.posts 7 =
      [{ Name := "commands", Path := "commands/.tmpl", Obj := Value.null }] ∧
    baseNameWithoutExt "commands/.tmpl" = "" ∧
    "commands" ≠ baseNameWithoutExt "commands/.tmpl" := by
  decide

/-- C9, amended: `postFile`, `postCommand` and `postTemplate` only record. Each
returns the empty string, makes no `Post` call and leaves the world, the
attachment store and the two flags as they were; it appends one post at
the end of the sequence stored for the goroutine (the sequences of the other
goroutines are as they were), with the payload `data`, the path `path` for
`postFile`, the commands directory, the separator and `fileName` for
`postCommand`, the templates directory, the separator and `fileName` for
`postTemplate`, and the name `filepath.Base` of the path with its
`filepath.Ext` removed. That name is the base file name without the extension
whenever the last element of the path is more than an extension. -/
theorem C9_post_functions_only_record (env : Env) (gid : Nat) (de : DefaultExecutor) (w : World)
    (data : Value) :
    (∀ path : String,
      (de.fPostFile gid path data).2 = "" ∧
      (de.fPostFile gid path data).1.attachments = de.attachments ∧
      (de.fPostFile gid path data).1.visible = de.visible ∧
      (de.fPostFile gid path data).1.error = de.error ∧
      stored (de.fPostFile gid path data).1.posts gid =
        stored de.posts gid ++
          [{ Name := filepath.Base (strings.TrimSuffix path (filepath.Ext path)), Path := path,
             Obj := data }] ∧
      (∀ g, g ≠ gid → (de.fPostFile gid path data).1.posts.Load g = de.posts.Load g) ∧
      (filepath.Ext path ≠ filepath.Base path →
        filepath.Base (strings.TrimSuffix path (filepath.Ext path)) = baseNameWithoutExt path)) ∧
    (∀ fileName : String,
      de.fPostCommand gid fileName data =
        de.fPostFile gid
          (de.command.processor.options.CommandsDir ++ String.mk [os.PathSeparator] ++ fileName)
          data ∧
      de.fPostTemplate gid fileName data =
        de.fPostFile gid
          (de.command.processor.options.TemplatesDir ++ String.mk [os.PathSeparator] ++ fileName)
          data) ∧
    (∀ name : String,
      (de.call env gid w (Call.postFile name data)).2 = (w, Except.ok "") ∧
      (de.call env gid w (Call.postCommand name data)).2 = (w, Except.ok "") ∧
      (de.call env gid w (Call.postTemplate name data)).2 = (w, Except.ok "")) := by
  refine ⟨?_, ?_, ?_⟩
  · intro path
    rw [fPostFile_fst]
    refine ⟨rfl, rfl, rfl, rfl, stored_Store _ _ _, ?_, Base_TrimSuffix_Ext path⟩
    intro g hg
    exact Store_other _ _ _ _ hg
  · intro fileName
    exact ⟨rfl, rfl⟩
  · intro name
    exact ⟨rfl, rfl, rfl⟩

/-- C9, amended, on the sample executor: `postCommand("followup.tmpl", data)`
records the post `followup` for the file `commands/followup.tmpl`. -/
theorem C9_post_functions_only_record_witness :
    (8 : Nat) ≠ 7 ∧
    filepath.Ext "commands/followup.tmpl" ≠ filepath.Base "commands/followup.tmpl" ∧
    stored (Sample.executor.fPostFile 7 "commands/followup.tmpl" (Value.str "x")).1.posts 7 =
      [{ Name := "followup", Path := "commands/followup.tmpl", Obj := Value.str "x" }] ∧
    (Sample.executor.fPostFile 7 "commands/followup.tmpl" (Value.str "x")).1.posts.Load 8 =
      none ∧
    baseNameWithoutExt "commands/followup.tmpl" = "followup" :=
  ⟨by decide, by decide,
    ((C9_post_functions_only_record Sample.files 7 Sample.executor Sample.world
      (Value.str "x")).1 "commands/followup.tmpl").2.2.2.2.1.trans (by decide),
    (((C9_post_functions_only_record Sample.files 7 Sample.executor Sample.world
      (Value.str "x")).1 "commands/followup.tmpl").2.2.2.2.2.1 8 (by decide)).trans rfl,
    (((C9_post_functions_only_record Sample.files 7 Sample.executor Sample.world
      (Value.str "x")).1 "commands/followup.tmpl").2.2.2.2.2.2 (by decide)).symm.trans
      (by decide)⟩

end Posts

section After

/-- A trimmed string is empty for `utils.IsEmpty` exactly when it is the empty
string. -/
theorem IsEmpty_TrimSpace (b : String) :
    utils.IsEmpty (strings.TrimSpace b) = true ↔ strings.TrimSpace b = "" := by
  constructor
  · intro h
    have hall := (IsEmpty_iff _).mp h
    have hhead := (TrimSpace_spec b).2.1
    cases hd : (strings.TrimSpace b).data with
    | nil => exact String.ext hd
    | cons c cs =>
      have h1 := hall c (by rw [hd]; exact List.mem_cons_self _ _)
      have h2 := hhead c (by rw [hd]; rfl)
      rw [h1] at h2
      exact absurd h2 (by decide)
  · intro h
    rw [h]
    decide

/-- The text that `render` returns is empty for `utils.IsEmpty` exactly when it
is the empty string. -/
theorem render_text (env : Env) (gid : Nat) (de : DefaultExecutor) (w : World) (obj : Value) :
    utils.IsEmpty (de.render env gid w obj).2.2.1 = true ↔
      (de.render env gid w obj).2.2.1 = "" := by
  rcases hr : de.RenderObject env gid w obj with ⟨de1, w1, r⟩
  cases r with
  | error e =>
    rw [render_error env gid de w obj de1 w1 e hr]
    exact ⟨fun _ => rfl, fun _ => (by decide : utils.IsEmpty "" = true)⟩
  | ok b =>
    rw [render_ok env gid de w obj de1 w1 b hr]
    exact IsEmpty_TrimSpace b

/-- The text that `execute` returns is empty for `utils.IsEmpty` exactly when it
is the empty string. -/
theorem execute_text (env : Env) (gid elapsed : Nat) (de : DefaultExecutor) (w : World)
    (obj : Value) :
    utils.IsEmpty (de.execute env gid elapsed w obj).2.2.1 = true ↔
      (de.execute env gid elapsed w obj).2.2.1 = "" := by
  have hr := render_text env gid de
    { w with metrics := w.metrics ++ [MetricEvent.inc "requests" de.labels] } obj
  simp only [DefaultExecutor.execute]
  rcases hx : de.render env gid
    { w with metrics := w.metrics ++ [MetricEvent.inc "requests" de.labels] } obj with
    ⟨de1, w1, text, atts, err⟩
  rw [hx] at hr
  cases err with
  | some e => exact ⟨fun _ => rfl, fun _ => (by decide : utils.IsEmpty "" = true)⟩
  | none => exact hr

/-- What `After` does on goroutine `gid`: one goroutine per post stored for
`gid`, in order, nothing left stored for `gid`, and nil returned. -/
theorem After_spec (gid : Nat) (de : DefaultExecutor) (message : Message) (channel : Channel) :
    (de.After gid message channel).2.1.map (fun t => t.post) = stored de.posts gid ∧
    (∀ t ∈ (de.After gid message channel).2.1,
      t.message = message ∧ t.channel = channel ∧ t.de.command = de.command ∧
      t.de.bot = de.bot ∧ t.de.user = de.user ∧ t.de.params = de.params) ∧
    (de.After gid message channel).2.2 = none ∧
    (de.After gid message channel).1.posts.Load gid = none ∧
    (∀ g, g ≠ gid → (de.After gid message channel).1.posts.Load g = de.posts.Load g) := by
  refine ⟨?_, ?_, rfl, ?_, ?_⟩
  · simp only [DefaultExecutor.After, sync.Map.LoadAndDelete, List.map_map, stored,
      sync.Map.Load]
    cases de.posts gid <;> simp [Function.comp_def]
  · intro t ht
    simp only [DefaultExecutor.After, List.mem_map] at ht
    obtain ⟨p, -, rfl⟩ := ht
    exact ⟨rfl, rfl, rfl, rfl, rfl, rfl⟩
  · simp [DefaultExecutor.After, sync.Map.LoadAndDelete, sync.Map.Load, sync.Map.Delete]
  · intro g hg
    simp [DefaultExecutor.After, sync.Map.LoadAndDelete, sync.Map.Load, sync.Map.Delete, hg]

/-- The executor that a goroutine of `After` builds. -/
theorem PostTask_executor (env : Env) (t : PostTask) (ex : DefaultExecutor)
    (h : t.executor env = Except.ok ex) :
    NewExecutorTemplate env t.post.Name t.post.Path = Except.ok ex.template ∧
    ex.command = t.de.command ∧ ex.bot = t.de.bot ∧ ex.user = t.de.user ∧
    ex.params = t.de.params ∧ ex.message = some t.message ∧ ex.channel = some t.channel ∧
    ex.attachments = sync.Map.empty ∧ ex.posts = sync.Map.empty := by
  unfold PostTask.executor NewExecutor at h
  cases ht : NewExecutorTemplate env t.post.Name t.post.Path with
  | error err => rw [ht] at h; simp at h
  | ok template =>
    rw [ht] at h
    simp only [Except.ok.injEq] at h
    subst h
    simp

/-- The `Post` calls of a goroutine of `After`. -/
theorem PostTask_run_posted (env : Env) (gid elapsed : Nat) (t : PostTask) (w : World) :
    (∀ err, t.executor env = Except.error err → (t.run env gid elapsed w).posted = w.posted) ∧
    (∀ ex, t.executor env = Except.ok ex →
      (t.run env gid elapsed w).posted =
        (ex.execute env gid elapsed w t.post.Obj).2.1.posted ++
          (if (ex.execute env gid elapsed w t.post.Obj).2.2.2.2 = none ∧
              (ex.execute env gid elapsed w t.post.Obj).2.2.1 ≠ "" then
            [{ channel := t.channel.ID, text := (ex.execute env gid elapsed w t.post.Obj).2.2.1,
               attachments := (ex.execute env gid elapsed w t.post.Obj).2.2.2.1,
               message := some t.message }]
          else [])) := by
  constructor
  · intro err h
    unfold PostTask.run
    rw [h]
  · intro ex h
    have htext := execute_text env gid elapsed ex w t.post.Obj
    unfold PostTask.run
    rw [h]
    simp only
    rcases hx : ex.execute env gid elapsed w t.post.Obj with ⟨ex1, w1, text, atts, err⟩
    rw [hx] at htext
    simp only at htext
    cases err with
    | some e => simp
    | none =>
      by_cases hempty : utils.IsEmpty text = true
      · have hnil := htext.mp hempty
        simp only [if_pos hempty]
        simp [hnil]
      · have hne : text ≠ "" := fun h => hempty (htext.mpr h)
        simp only [hempty, hne]
        cases t.de.bot.Post w1.posted
          { channel := t.channel.ID, text := text, attachments := atts,
            message := some t.message } <;> simp [hne]

/-- The text, attachments and error that `execute` returns are those of the
render it makes, after the `requests` counter is incremented. -/
theorem execute_result (env : Env) (gid elapsed : Nat) (de : DefaultExecutor) (w : World)
    (obj : Value) :
    (de.execute env gid elapsed w obj).2.2 =
      (de.render env gid
        { w with metrics := w.metrics ++ [MetricEvent.inc "requests" de.labels] } obj).2.2 := by
  simp only [DefaultExecutor.execute]
  rcases hr : de.RenderObject env gid
    { w with metrics := w.metrics ++ [MetricEvent.inc "requests" de.labels] } obj with
    ⟨de1, w1, r⟩
  cases r with
  | error e => rw [render_error env gid de _ obj de1 w1 e hr]
  | ok b => rw [render_ok env gid de _ obj de1 w1 b hr]

theorem World_append_empty (v : World) : v.append World.empty = v := by
  cases v
  simp [World.append, World.empty]

/-- On a memoryless bot the delivery loop does the same in every world. -/
theorem sendLoop_append (bot : Bot) (h : bot.Memoryless) (message : String)
    (atts : List Attachment) :
    ∀ (chs : List String) (v w : World) (err : Option String),
      DefaultExecutor.sendLoop bot message atts chs (v.append w) err =
        (v.append (DefaultExecutor.sendLoop bot message atts chs w err).1,
          (DefaultExecutor.sendLoop bot message atts chs w err).2) := by
  intro chs
  induction chs with
  | nil => intro v w err; rfl
  | cons ch rest ih =>
    intro v w err
    have e1 : bot.Post (v.append w).posted
          { channel := ch, text := message, attachments := atts, message := none } =
        bot.Post w.posted
          { channel := ch, text := message, attachments := atts, message := none } :=
      (h _ _).trans (h _ _).symm
    simp only [DefaultExecutor.sendLoop]
    rw [e1]
    cases bot.Post w.posted
      { channel := ch, text := message, attachments := atts, message := none } with
    | none =>
      have hw : ({ v.append w with
            posted := (v.append w).posted ++
              [{ channel := ch, text := message, attachments := atts, message := none }] } :
            World) =
          v.append { w with posted := w.posted ++
              [{ channel := ch, text := message, attachments := atts, message := none }] } := by
        simp [World.append]
      simp only [hw]
      exact ih _ _ _
    | some e =>
      have hw : ({ v.append w with
            posted := (v.append w).posted ++
              [{ channel := ch, text := message, attachments := atts, message := none }],
            logged := (v.append w).logged ++ [e] } : World) =
          v.append { w with
            posted := w.posted ++
              [{ channel := ch, text := message, attachments := atts, message := none }],
            logged := w.logged ++ [e] } := by
        simp [World.append]
      simp only [hw]
      exact ih _ _ _

theorem fSendMessageEx_append (de : DefaultExecutor) (h : de.bot.Memoryless) (v w : World)
    (message channels : String) (params : SendParams) :
    de.fSendMessageEx (v.append w) message channels params =
      (v.append (de.fSendMessageEx w message channels params).1,
        (de.fSendMessageEx w message channels params).2) := by
  unfold DefaultExecutor.fSendMessageEx
  split
  · rfl
  · split
    · rfl
    · simp only
      split
      · rfl
      · rw [sendLoop_append de.bot h]

/-- On a memoryless bot a host-function call does the same in every world. -/
theorem call_append (env : Env) (gid : Nat) (de : DefaultExecutor) (h : de.bot.Memoryless)
    (v w : World) (c : Call) :
    de.call env gid (v.append w) c =
      ((de.call env gid w c).1, v.append (de.call env gid w c).2.1,
        (de.call env gid w c).2.2) := by
  cases c with
  | sendMessage message channels =>
    simp only [DefaultExecutor.call, DefaultExecutor.fSendMessage,
      fSendMessageEx_append de h v w]
    rcases de.fSendMessageEx w message channels [] with ⟨w1, s, e⟩
    cases e <;> rfl
  | sendMessageEx message channels params =>
    simp only [DefaultExecutor.call, fSendMessageEx_append de h v w]
    rcases de.fSendMessageEx w message channels params with ⟨w1, s, e⟩
    cases e <;> rfl
  | _ => rfl

theorem calls_append (env : Env) (gid : Nat) :
    ∀ (cs : List Call) (de : DefaultExecutor), de.bot.Memoryless → ∀ (v w : World),
      DefaultExecutor.calls env gid cs de (v.append w) =
        ((DefaultExecutor.calls env gid cs de w).1,
          v.append (DefaultExecutor.calls env gid cs de w).2.1,
          (DefaultExecutor.calls env gid cs de w).2.2) := by
  intro cs
  induction cs with
  | nil => intro de h v w; rfl
  | cons c cs ih =>
    intro de h v w
    have hb := (call_fields env gid de w c).2.1
    simp only [DefaultExecutor.calls, call_append env gid de h v w c]
    rcases hc : de.call env gid w c with ⟨de2, w2, r⟩
    rw [hc] at hb
    cases r with
    | error e => rfl
    | ok x =>
      simp only
      have h2 : de2.bot.Memoryless := by
        simp only at hb
        rw [hb]
        exact h
      exact ih de2 h2 v w2

/-- On a memoryless bot a render does the same in every world. -/
theorem render_append (env : Env) (gid : Nat) (de : DefaultExecutor) (h : de.bot.Memoryless)
    (v w : World) (obj : Value) :
    de.render env gid (v.append w) obj =
      ((de.render env gid w obj).1, v.append (de.render env gid w obj).2.1,
        (de.render env gid w obj).2.2) := by
  simp only [DefaultExecutor.render, DefaultExecutor.RenderObject,
    calls_append env gid _ de h v w]
  rcases DefaultExecutor.calls env gid (de.template.RenderObject obj).calls de w with
    ⟨de1, w1, r⟩
  cases r with
  | some e => rfl
  | none =>
    simp only
    cases (de.template.RenderObject obj).result <;> rfl

/-- On a memoryless bot `execute` does the same in every world. -/
theorem execute_append (env : Env) (gid elapsed : Nat) (de : DefaultExecutor)
    (h : de.bot.Memoryless) (v w : World) (obj : Value) :
    de.execute env gid elapsed (v.append w) obj =
      ((de.execute env gid elapsed w obj).1, v.append (de.execute env gid elapsed w obj).2.1,
        (de.execute env gid elapsed w obj).2.2) := by
  have hw : ({ v.append w with
        metrics := (v.append w).metrics ++ [MetricEvent.inc "requests" de.labels] } : World) =
      v.append { w with metrics := w.metrics ++ [MetricEvent.inc "requests" de.labels] } := by
    simp [World.append]
  simp only [DefaultExecutor.execute, hw, render_append env gid de h]
  rcases de.render env gid
    { w with metrics := w.metrics ++ [MetricEvent.inc "requests" de.labels] } obj with
    ⟨de1, w1, text, atts, err⟩
  cases err <;> simp [World.append]

/-- On a memoryless bot a goroutine of `After` adds the same `Post` calls,
logged errors and counter operations to every world. -/
theorem PostTask_run_append (env : Env) (gid elapsed : Nat) (t : PostTask)
    (h : t.de.bot.Memoryless) (v w : World) :
    t.run env gid elapsed (v.append w) = v.append (t.run env gid elapsed w) := by
  unfold PostTask.run
  cases hex : t.executor env with
  | error err => simp [World.append]
  | ok ex =>
    have hb := (PostTask_executor env t ex hex).2.2.1
    have h2 : ex.bot.Memoryless := by
      rw [hb]
      exact h
    simp only [execute_append env gid elapsed ex h2 v w]
    rcases ex.execute env gid elapsed w t.post.Obj with ⟨ex1, w1, text, atts, err⟩
    cases err with
    | some e => simp [World.append]
    | none =>
      simp only
      split
      · rfl
      · have e1 : t.de.bot.Post (v.append w1).posted
              { channel := t.channel.ID, text := text, attachments := atts,
                message := some t.message } =
            t.de.bot.Post w1.posted
              { channel := t.channel.ID, text := text, attachments := atts,
                message := some t.message } :=
          (h _ _).trans (h _ _).symm
        rw [e1]
        cases t.de.bot.Post w1.posted
          { channel := t.channel.ID, text := text, attachments := atts,
            message := some t.message } <;> simp [World.append]

theorem FanOut_refl (w w1 : World) (h : w1.posted = w.posted) : w.FanOut w1 :=
  ⟨[], by simp [h], by simp⟩

theorem FanOut_trans (w w1 w2 : World) (h1 : w.FanOut w1) (h2 : w1.FanOut w2) :
    w.FanOut w2 := by
  obtain ⟨e1, hp1, hm1⟩ := h1
  obtain ⟨e2, hp2, hm2⟩ := h2
  refine ⟨e1 ++ e2, by rw [hp2, hp1, List.append_assoc], ?_⟩
  intro c hc
  rcases List.mem_append.mp hc with hc | hc
  · exact hm1 c hc
  · exact hm2 c hc

theorem fSendMessageEx_fanout (de : DefaultExecutor) (w : World) (message channels : String)
    (params : SendParams) : w.FanOut (de.fSendMessageEx w message channels params).1 := by
  unfold DefaultExecutor.fSendMessageEx
  split
  · exact FanOut_refl _ _ rfl
  · split
    · exact FanOut_refl _ _ rfl
    · simp only
      split
      · exact FanOut_refl _ _ rfl
      · refine ⟨_, sendLoop_posted de.bot message _ _ w none, ?_⟩
        intro c hc
        simp only [List.mem_map] at hc
        obtain ⟨ch, -, rfl⟩ := hc
        rfl

/-- A host-function call makes fan-out `Post` calls only. -/
theorem call_fanout (env : Env) (gid : Nat) (de : DefaultExecutor) (w : World) (c : Call) :
    w.FanOut (de.call env gid w c).2.1 := by
  cases c with
  | sendMessage message channels =>
    have h := fSendMessageEx_fanout de w message channels []
    simp only [DefaultExecutor.call, DefaultExecutor.fSendMessage]
    rcases hr : de.fSendMessageEx w message channels [] with ⟨w1, s, e⟩
    rw [hr] at h
    cases e <;> exact h
  | sendMessageEx message channels params =>
    have h := fSendMessageEx_fanout de w message channels params
    simp only [DefaultExecutor.call]
    rcases hr : de.fSendMessageEx w message channels params with ⟨w1, s, e⟩
    rw [hr] at h
    cases e <;> exact h
  | _ => exact FanOut_refl _ _ rfl

theorem calls_fanout (env : Env) (gid : Nat) :
    ∀ (cs : List Call) (de : DefaultExecutor) (w : World),
      w.FanOut (DefaultExecutor.calls env gid cs de w).2.1 := by
  intro cs
  induction cs with
  | nil => intro de w; exact FanOut_refl _ _ rfl
  | cons c cs ih =>
    intro de w
    have hc := call_fanout env gid de w c
    rcases hr : de.call env gid w c with ⟨de2, w2, r⟩
    rw [hr] at hc
    simp only [DefaultExecutor.calls, hr]
    cases r with
    | error e => exact hc
    | ok x => exact FanOut_trans _ _ _ hc (ih de2 w2)

/-- A render makes fan-out `Post` calls only. -/
theorem render_fanout (env : Env) (gid : Nat) (de : DefaultExecutor) (w : World) (obj : Value) :
    w.FanOut (de.render env gid w obj).2.1 := by
  have hc := calls_fanout env gid (de.template.RenderObject obj).calls de w
  simp only [DefaultExecutor.render, DefaultExecutor.RenderObject]
  rcases hr : DefaultExecutor.calls env gid (de.template.RenderObject obj).calls de w with
    ⟨de1, w1, r⟩
  rw [hr] at hc
  cases r with
  | some e => exact hc
  | none =>
    simp only
    cases (de.template.RenderObject obj).result <;> exact hc

/-- The `Post` calls made during `execute` are fan-out sends of its render. -/
theorem execute_fanout (env : Env) (gid elapsed : Nat) (de : DefaultExecutor) (w : World)
    (obj : Value) : w.FanOut (de.execute env gid elapsed w obj).2.1 := by
  have hr := render_fanout env gid de
    { w with metrics := w.metrics ++ [MetricEvent.inc "requests" de.labels] } obj
  simp only [DefaultExecutor.execute]
  rcases hx : de.render env gid
    { w with metrics := w.metrics ++ [MetricEvent.inc "requests" de.labels] } obj with
    ⟨de1, w1, text, atts, err⟩
  rw [hx] at hr
  obtain ⟨extra, hp, hm⟩ := hr
  cases err <;> exact ⟨extra, hp, hm⟩

/-- C10 as stated fails, at three places. On the executor of a successful
render that recorded a post on goroutine 7, `After` called on goroutine 8
starts no goroutine and leaves the post recorded. A goroutine of `After`
whose template sends a notice and then fails has made the `Post` call of the
notice although its render failed (the error is logged, no reply is posted).
On a bot that accepts one `Post` and refuses the later ones, the goroutine
whose template sends a notice and prints posts the notice and its reply when
it runs first, and after the follow-up goroutine has posted it only attempts
the notice, its render fails and it posts no reply. -/
theorem C10_After_counterexample :
    (stored (Sample.executor.render Sample.files 7 Sample.world Value.null).1.posts 7 =
        [{ Name := "followup", Path := "commands/followup.tmpl", Obj := Value.str "payload" }] ∧
      ((Sample.executor.render Sample.files 7 Sample.world Value.null).1.After 8 Sample.message
        Sample.channel).2.1.map (fun t => t.post) = [] ∧
      stored ((Sample.executor.render Sample.files 7 Sample.world Value.null).1.After 8
        Sample.message Sample.channel).1.posts 7 =
        [{ Name := "followup", Path := "commands/followup.tmpl",
           Obj := Value.str "payload" }]) ∧
    ((Sample.brokenTask.run Sample.deferredFiles 9 0 World.empty).logged =
        ["template: map has no entry for key"] ∧
      (Sample.brokenTask.run Sample.deferredFiles 9 0 World.empty).posted =
        [{ channel := "ops", text := "notice", attachments := [], message := none }]) ∧
    ((Sample.busyNotifyTask.run Sample.deferredFiles 9 0 World.empty).posted =
        [{ channel := "ops", text := "notice", attachments := [], message := none },
         { channel := "C1", text := "done", attachments := [],
           message := some Sample.message }] ∧
      (Sample.busyNotifyTask.run Sample.deferredFiles 9 0
          (Sample.busyFollowupTask.run Sample.deferredFiles 8 0 World.empty)).posted =
        (Sample.busyFollowupTask.run Sample.deferredFiles 8 0 World.empty).posted ++
          [{ channel := "ops", text := "notice", attachments := [], message := none }]) := by
  decide

/-- C10, amended: `After` called on goroutine `gid` starts exactly one goroutine
per post stored for `gid`, in order (after a successful render on the same
goroutine of an executor that held none: the posts recorded by that render),
each bound to the command, bot, user and params of the executor and to the
message and channel, leaves no post stored for `gid` (a second `After` starts
none), does not touch the posts of other goroutines, and returns nil. Each
goroutine, in whatever world it runs: makes no `Post` call when its executor
cannot be created; otherwise the executor is a new one for the file of the
post, with empty stores and with message and channel set, the payload of the
post is rendered, the `Post` calls made during that render are fan-out sends
(none replies to a message), and after them the goroutine calls `Post` with
the channel id, the text, the attachments of that render and the message
exactly once when the render succeeds with a non-empty text, and not at all
otherwise. On a bot that answers each `Post` independently of the calls made
before, a goroutine adds the same `Post` calls, logged errors and counter
operations to every world, whatever its siblings did before. -/
theorem C10_After_runs_deferred_posts (env : Env) (gid : Nat) (de : DefaultExecutor)
    (message : Message) (channel : Channel) :
    ((de.After gid message channel).2.1.map (fun t => t.post) = stored de.posts gid ∧
      (∀ t ∈ (de.After gid message channel).2.1,
        t.message = message ∧ t.channel = channel ∧ t.de.command = de.command ∧
        t.de.bot = de.bot ∧ t.de.user = de.user ∧ t.de.params = de.params) ∧
      (de.After gid message channel).2.2 = none ∧
      (de.After gid message channel).1.posts.Load gid = none ∧
      ((de.After gid message channel).1.After gid message channel).2.1.map (fun t => t.post)
        = [] ∧
      (∀ g, g ≠ gid → (de.After gid message channel).1.posts.Load g = de.posts.Load g)) ∧
    (∀ (w : World) (obj : Value) (de1 : DefaultExecutor) (w1 : World) (b : String),
      de.posts.Load gid = none →
      de.RenderObject env gid w obj = (de1, w1, Except.ok b) →
      ((de.render env gid w obj).1.After gid message channel).2.1.map (fun t => t.post) =
        (de.template.RenderObject obj).calls.flatMap (Call.recorded de.command)) ∧
    (∀ (t : PostTask) (g elapsed : Nat) (w : World),
      (∀ err, t.executor env = Except.error err → (t.run env g elapsed w).posted = w.posted) ∧
      (∀ ex, t.executor env = Except.ok ex →
        (NewExecutorTemplate env t.post.Name t.post.Path = Except.ok ex.template ∧
          ex.command = t.de.command ∧ ex.bot = t.de.bot ∧ ex.user = t.de.user ∧
          ex.params = t.de.params ∧ ex.message = some t.message ∧
          ex.channel = some t.channel ∧ ex.attachments = sync.Map.empty ∧
          ex.posts = sync.Map.empty) ∧
        (ex.execute env g elapsed w t.post.Obj).2.2 =
          (ex.render env g
            { w with metrics := w.metrics ++ [MetricEvent.inc "requests" ex.labels] }
            t.post.Obj).2.2 ∧
        w.FanOut (ex.execute env g elapsed w t.post.Obj).2.1 ∧
        (t.run env g elapsed w).posted =
          (ex.execute env g elapsed w t.post.Obj).2.1.posted ++
            (if (ex.execute env g elapsed w t.post.Obj).2.2.2.2 = none ∧
                (ex.execute env g elapsed w t.post.Obj).2.2.1 ≠ "" then
              [{ channel := t.channel.ID, text := (ex.execute env g elapsed w t.post.Obj).2.2.1,
                 attachments := (ex.execute env g elapsed w t.post.Obj).2.2.2.1,
                 message := some t.message }]
            else []))) ∧
    (∀ (t : PostTask) (g elapsed : Nat), t.de.bot.Memoryless → ∀ (v w : World),
      t.run env g elapsed (v.append w) = v.append (t.run env g elapsed w)) := by
  have hafter := After_spec gid de message channel
  refine ⟨⟨hafter.1, hafter.2.1, hafter.2.2.1, hafter.2.2.2.1, ?_, hafter.2.2.2.2⟩, ?_, ?_, ?_⟩
  · rw [(After_spec gid (de.After gid message channel).1 message channel).1]
    simp [stored, hafter.2.2.2.1]
  · intro w obj de1 w1 b hfresh hok
    rw [(After_spec gid (de.render env gid w obj).1 message channel).1]
    rw [render_ok env gid de w obj de1 w1 b hok]
    have hcalls := (calls_ok env gid _ de w de1 w1
      (RenderObject_ok env gid de w obj de1 w1 b hok)).2
    have hnil : stored de.posts gid = [] := by simp only [stored, hfresh]
    rw [hnil, List.nil_append] at hcalls
    exact hcalls
  · intro t g elapsed w
    refine ⟨(PostTask_run_posted env g elapsed t w).1, ?_⟩
    intro ex hex
    exact ⟨PostTask_executor env t ex hex, execute_result env g elapsed ex w t.post.Obj,
      execute_fanout env g elapsed ex w t.post.Obj,
      (PostTask_run_posted env g elapsed t w).2 ex hex⟩
  · intro t g elapsed h v w
    exact PostTask_run_append env g elapsed t h v w

/-- C10, amended, on the sample executor: after the render on goroutine 7,
`After` on goroutine 7 starts the goroutine of the recorded post; a goroutine
whose file is missing posts nothing, and the follow-up goroutine run after
it, on a bot that answers each `Post` independently of earlier calls, still
posts its text to the channel, as a reply to the message. -/
theorem C10_After_runs_deferred_posts_witness :
    (8 : Nat) ≠ 7 ∧
    ((Sample.executor.render Sample.files 7 Sample.world Value.null).1.After 7 Sample.message
      Sample.channel).2.1.map (fun t => t.post) =
      [{ Name := "followup", Path := "commands/followup.tmpl", Obj := Value.str "payload" }] ∧
    (Sample.missingTask.run Sample.files 8 0 Sample.world).posted = [] ∧
    Sample.followupTask.de.bot.Memoryless ∧
    (Sample.followupTask.run Sample.files 9 0
      ((Sample.missingTask.run Sample.files 8 0 Sample.world).append World.empty)).posted =
      [{ channel := "C1", text := "payload", attachments := [],
         message := some Sample.message }] :=
  ⟨by decide,
    ((C10_After_runs_deferred_posts Sample.files 7 Sample.executor Sample.message
      Sample.channel).2.1 Sample.world Value.null
      (Sample.executor.RenderObject Sample.files 7 Sample.world Value.null).1
      (Sample.executor.RenderObject Sample.files 7 Sample.world Value.null).2.1
      "  hello world \n" rfl rfl).trans (by decide),
    (((C10_After_runs_deferred_posts Sample.files 7 Sample.executor Sample.message
      Sample.channel).2.2.1 Sample.missingTask 8 0 Sample.world).1
      "Default couldn't read template commands/missing.tmpl, error open commands/missing.tmpl: no such file or directory"
      rfl).trans rfl,
    fun _ _ => rfl,
    (congrArg World.posted
      ((C10_After_runs_deferred_posts Sample.files 7 Sample.executor Sample.message
        Sample.channel).2.2.2 Sample.followupTask 9 0 (fun _ _ => rfl)
        (Sample.missingTask.run Sample.files 8 0 Sample.world) World.empty)).trans
      (by decide)⟩

end After

section Registry

/-- The result of `AddCommand` when the template cannot be read or compiled. -/
theorem AddCommand_error (env : Env) (cfg : ConfigFiles) (d : Default) (w : World)
    (name path err : String) (h : NewExecutorTemplate env name path = Except.error err) :
    d.AddCommand env cfg w name path =
      (d, { (d.commandConfig env cfg w name path).1 with
              logged := (d.commandConfig env cfg w name path).1.logged ++
                ["Default file " ++ path ++ " " ++ err] },
        some ("Default file " ++ path ++ " " ++ err)) := by
  simp only [Default.AddCommand, Default.createCommand, h]

/-- The result of `AddCommand` when the template compiles. -/
theorem AddCommand_ok (env : Env) (cfg : ConfigFiles) (d : Default) (w : World)
    (name path : String) (t : TextTemplate) (h : NewExecutorTemplate env name path = Except.ok t) :
    d.AddCommand env cfg w name path =
      ({ d with commands := d.commands ++
            [{ name := name, path := path, config := (d.commandConfig env cfg w name path).2,
               processor := d.ref }] },
        (d.commandConfig env cfg w name path).1, none) := by
  simp only [Default.AddCommand, Default.createCommand, h]

/-- C11: `AddCommand(name, path)` fails fast and leaves the registry as it was
when the template at `path` cannot be read or compiled: it returns an error
and `Commands()` is unchanged. When the template compiles it returns nil and
`Commands()` is the previous sequence followed by one new command, whose
`Name()` is `name`. A config file that cannot be loaded does not make it fail:
the error is logged and the command is added without config. -/
theorem C11_AddCommand_fail_fast (env : Env) (cfg : ConfigFiles) (d : Default) (w : World)
    (name path : String) :
    (∀ err, NewExecutorTemplate env name path = Except.error err →
      (d.AddCommand env cfg w name path).2.2 = some ("Default file " ++ path ++ " " ++ err) ∧
      (d.AddCommand env cfg w name path).1.Commands = d.Commands) ∧
    (∀ t, NewExecutorTemplate env name path = Except.ok t →
      (d.AddCommand env cfg w name path).2.2 = none ∧
      (∃ dc : DefaultCommand,
        (d.AddCommand env cfg w name path).1.Commands = d.Commands ++ [dc] ∧
        dc.Name = name ∧ dc.path = path ∧ dc.processor = d.ref ∧
        dc.config = (d.commandConfig env cfg w name path).2) ∧
      (∀ err, utils.IsEmpty d.options.ConfigExt = false →
        d.loadConfig env cfg
          (filepath.Join [filepath.Dir path, name ++ d.options.ConfigExt]) = Except.error err →
        (d.AddCommand env cfg w name path).1.Commands =
          d.Commands ++ [{ name := name, path := path, config := none, processor := d.ref }] ∧
        (d.AddCommand env cfg w name path).2.1.logged =
          w.logged ++ ["Default couldn't read config " ++ path ++ ", error " ++ err])) := by
  constructor
  · intro err h
    rw [AddCommand_error env cfg d w name path err h]
    exact ⟨rfl, rfl⟩
  · intro t h
    rw [AddCommand_ok env cfg d w name path t h]
    refine ⟨rfl, ⟨_, rfl, rfl, rfl, rfl, rfl⟩, ?_⟩
    intro err hext hload
    have hc : d.commandConfig env cfg w name path =
        ({ w with logged := w.logged ++
            ["Default couldn't read config " ++ path ++ ", error " ++ err] }, none) := by
      simp only [Default.commandConfig, hext, hload]
      rfl
    rw [hc]
    exact ⟨rfl, rfl⟩

/-- C11 on the sample registry: a template that cannot be read leaves the one
registered command; a template that compiles, next to a config file that
cannot be read, is appended without config. -/
theorem C11_AddCommand_fail_fast_witness :
    ((Sample.registry.AddCommand Sample.noFiles Sample.noConfig Sample.world "hello"
        "commands/hello.tmpl").2.2 =
        some ("Default file commands/hello.tmpl Default couldn't read template " ++
          "commands/hello.tmpl, error open commands/hello.tmpl: no such file or directory") ∧
      (Sample.registry.AddCommand Sample.noFiles Sample.noConfig Sample.world "hello"
        "commands/hello.tmpl").1.Commands = [Sample.configured]) ∧
    ((Sample.registry.AddCommand Sample.files Sample.brokenConfig Sample.world "hello"
        "commands/hello.tmpl").2.2 = none ∧
      (Sample.registry.AddCommand Sample.files Sample.brokenConfig Sample.world "hello"
        "commands/hello.tmpl").1.Commands = [Sample.configured, Sample.command]) :=
  ⟨(C11_AddCommand_fail_fast Sample.noFiles Sample.noConfig Sample.registry Sample.world "hello"
      "commands/hello.tmpl").1
      ("Default couldn't read template commands/hello.tmpl, error " ++
        "open commands/hello.tmpl: no such file or directory") rfl,
    ((C11_AddCommand_fail_fast Sample.files Sample.brokenConfig Sample.registry Sample.world
      "hello" "commands/hello.tmpl").2 Sample.template rfl).1,
    (((C11_AddCommand_fail_fast Sample.files Sample.brokenConfig Sample.registry Sample.world
      "hello" "commands/hello.tmpl").2 Sample.template rfl).2.2
      "open commands/hello.yaml: no such file or directory" (by decide) rfl).1⟩

end Registry

section Metrics

theorem sendLoop_metrics (bot : Bot) (message : String) (atts : List Attachment) :
    ∀ (chs : List String) (w : World) (err : Option String),
      (DefaultExecutor.sendLoop bot message atts chs w err).1.metrics = w.metrics := by
  intro chs
  induction chs with
  | nil => intro w err; rfl
  | cons ch rest ih =>
    intro w err
    simp only [DefaultExecutor.sendLoop]
    split <;> rw [ih]

theorem fSendMessageEx_metrics (de : DefaultExecutor) (w : World) (message channels : String)
    (params : SendParams) :
    (de.fSendMessageEx w message channels params).1.metrics = w.metrics := by
  unfold DefaultExecutor.fSendMessageEx
  split
  · rfl
  · split
    · rfl
    · simp only
      split
      · rfl
      · exact sendLoop_metrics _ _ _ _ _ _

/-- A host-function call does not touch the counters. -/
theorem call_metrics (env : Env) (gid : Nat) (de : DefaultExecutor) (w : World) (c : Call) :
    (de.call env gid w c).2.1.metrics = w.metrics := by
  cases c with
  | sendMessage message channels =>
    have h := fSendMessageEx_metrics de w message channels []
    simp only [DefaultExecutor.call, DefaultExecutor.fSendMessage]
    rcases hr : de.fSendMessageEx w message channels [] with ⟨w1, s, e⟩
    rw [hr] at h
    cases e <;> exact h
  | sendMessageEx message channels params =>
    have h := fSendMessageEx_metrics de w message channels params
    simp only [DefaultExecutor.call]
    rcases hr : de.fSendMessageEx w message channels params with ⟨w1, s, e⟩
    rw [hr] at h
    cases e <;> exact h
  | _ => rfl

theorem calls_metrics (env : Env) (gid : Nat) :
    ∀ (cs : List Call) (de : DefaultExecutor) (w : World),
      (DefaultExecutor.calls env gid cs de w).2.1.metrics = w.metrics := by
  intro cs
  induction cs with
  | nil => intro de w; rfl
  | cons c cs ih =>
    intro de w
    have hc := call_metrics env gid de w c
    rcases hr : de.call env gid w c with ⟨de2, w2, r⟩
    rw [hr] at hc
    simp only [DefaultExecutor.calls, hr]
    cases r with
    | error e => exact hc
    | ok v =>
      simp only
      rw [ih de2 w2]
      exact hc

/-- A render does not touch the counters. -/
theorem render_metrics (env : Env) (gid : Nat) (de : DefaultExecutor) (w : World) (obj : Value) :
    (de.render env gid w obj).2.1.metrics = w.metrics := by
  have hc := calls_metrics env gid (de.template.RenderObject obj).calls de w
  simp only [DefaultExecutor.render, DefaultExecutor.RenderObject]
  rcases hr : DefaultExecutor.calls env gid (de.template.RenderObject obj).calls de w with
    ⟨de1, w1, r⟩
  rw [hr] at hc
  cases r with
  | some e => exact hc
  | none =>
    simp only
    cases (de.template.RenderObject obj).result <;> exact hc

/-- The counter operations of `execute`: `requests` is incremented once; then
`errors` is incremented once when the render fails, and the elapsed
milliseconds are added to `time` when it succeeds, all with the same labels.
Nothing is added to `time` when the render fails. -/
theorem execute_metrics (env : Env) (gid elapsed : Nat) (de : DefaultExecutor) (w : World)
    (obj : Value) :
    (de.execute env gid elapsed w obj).2.1.metrics =
      w.metrics ++ [MetricEvent.inc "requests" de.labels] ++
        (if (de.execute env gid elapsed w obj).2.2.2.2 = none then
          [MetricEvent.add "time" de.labels elapsed]
        else [MetricEvent.inc "errors" de.labels]) := by
  have hm := render_metrics env gid de
    { w with metrics := w.metrics ++ [MetricEvent.inc "requests" de.labels] } obj
  rcases hr : de.render env gid
    { w with metrics := w.metrics ++ [MetricEvent.inc "requests" de.labels] } obj with
    ⟨de1, w1, text, atts, err⟩
  rw [hr] at hm
  simp only at hm
  cases err with
  | some e =>
    have hex : de.execute env gid elapsed w obj =
        (de1, { w1 with metrics := w1.metrics ++ [MetricEvent.inc "errors" de.labels] }, "", [],
          some e) := by
      simp only [DefaultExecutor.execute, hr]
    rw [hex]
    simp [hm]
  | none =>
    have hex : de.execute env gid elapsed w obj =
        (de1, { w1 with metrics := w1.metrics ++ [MetricEvent.add "time" de.labels elapsed] },
          text, atts, none) := by
      simp only [DefaultExecutor.execute, hr]
    rw [hex]
    simp [hm]

/-- C12, the code at the failing input: an `execute` whose render fails, taking
25 ms, increments `requests` and `errors` once each and adds nothing to the
`time` counter. -/
theorem C12_execute_failure_adds_no_time :
    (Sample.failingExecutor.execute Sample.files 7 25 Sample.world Value.null).2.2.2.2 =
      some "template: map has no entry for key" ∧
    (Sample.failingExecutor.execute Sample.files 7 25 Sample.world Value.null).2.1.metrics =
      [MetricEvent.inc "requests"
          [("group", "ops"), ("command", "hello"), ("bot", "slack"), ("user_id", "U1")],
       MetricEvent.inc "errors"
          [("group", "ops"), ("command", "hello"), ("bot", "slack"), ("user_id", "U1")]] ∧
    MetricEvent.add "time"
        [("group", "ops"), ("command", "hello"), ("bot", "slack"), ("user_id", "U1")] 25 ∉
      (Sample.failingExecutor.execute Sample.files 7 25 Sample.world Value.null).2.1.metrics ∧
    (Sample.executor.execute Sample.files 7 25 Sample.world Value.null).2.1.metrics =
      [MetricEvent.inc "requests"
          [("group", "ops"), ("command", "hello"), ("bot", "slack"), ("user_id", "U1")],
       MetricEvent.add "time"
          [("group", "ops"), ("command", "hello"), ("bot", "slack"), ("user_id", "U1")] 25] := by
  decide

end Metrics
